import Mathlib

/-!
Verification of the safety-policy core of the unifi-network-mcp server.

The TypeScript source is shallowly embedded:

* JSON values are the inductive `Json`; `jsonStringify` models the call
  JSON.stringify(value, null, 2) used by the source (pretty-printed with a
  two-space indent), and `Json.parse` is an executable parser for that
  output, with a proven round-trip.
* src/utils/safety.ts is embedded as `READ_ONLY`, `WRITE`,
  `WRITE_NOT_IDEMPOTENT`, `DESTRUCTIVE`, `formatDryRun` and
  `requireConfirmation`.
* src/utils/query.ts is embedded as `buildQuery`, on top of a model of
  URLSearchParams (insertion-ordered pairs, form-urlencoded rendering).
* src/config.ts is embedded as `loadConfig` over an explicit environment.
* The network collaborator (src/client.ts) is a behaviour function from
  requests to results; tool handlers are embedded as functions returning
  their result together with the list of requests they issued, so that
  "no network call happens" is the statement that this list is empty.
* Tool registration (src/tools/*.ts) is embedded as the list of
  (name, input-field, annotations) records each register function hands to
  the MCP server, with the early `if (readOnly) return` gates kept.
-/

namespace UnifiMcp

/-- A JSON value. Numbers are integers: every body the source ever sends is
built from strings, booleans and integer-constrained fields. -/
inductive Json where
  | null
  | bool (b : Bool)
  | num (n : Int)
  | str (s : String)
  | arr (elems : List Json)
  | obj (fields : List (String × Json))
deriving Inhabited, Repr

namespace Json

/-- First value bound to a key of a JSON object (none on non-objects and
missing keys), the way consumers of the dry-run preview index into it. -/
def getKey : Json → String → Option Json
  | .obj fields, k => go fields k
  | _, _ => none
where go : List (String × Json) → String → Option Json
  | [], _ => none
  | (k', v) :: rest, k => if k' = k then some v else go rest k

end Json

/-! ### Rendering: JSON.stringify(value, null, 2) -/

/-- Hex digit character (lowercase), as emitted in \u00XX escapes. -/
def hexDigitChar (n : Nat) : Char :=
  Char.ofNat (if n < 10 then 48 + n else 87 + n)

/-- JSON.stringify escaping of one character: quote, backslash and the
named control characters get two-character escapes, the other control
characters get \u00XX, everything else is emitted as itself. -/
def escapeChar (c : Char) : List Char :=
  match c with
  | '"' => '\\' :: '"' :: []
  | '\\' => '\\' :: '\\' :: []
  | '\n' => '\\' :: 'n' :: []
  | '\r' => '\\' :: 'r' :: []
  | '\t' => '\\' :: 't' :: []
  | c =>
    if c = Char.ofNat 8 then '\\' :: 'b' :: []
    else if c = Char.ofNat 12 then '\\' :: 'f' :: []
    else if c.toNat < 32 then
      '\\' :: 'u' :: '0' :: '0' ::
        hexDigitChar (c.toNat / 16) :: hexDigitChar (c.toNat % 16) :: []
    else c :: []

/-- Escape a whole character sequence. -/
def escapeList : List Char → List Char
  | [] => []
  | c :: cs => escapeChar c ++ escapeList cs

/-- A string rendered as a JSON string literal (character list). -/
def renderStr (s : String) : List Char :=
  '"' :: (escapeList s.data ++ ['"'])

/-- Decimal digit characters of a natural number, most significant first. -/
def natChars (n : Nat) : List Char :=
  if h : n < 10 then [Char.ofNat ('0'.toNat + n)]
  else natChars (n / 10) ++ [Char.ofNat ('0'.toNat + n % 10)]
decreasing_by exact Nat.div_lt_self (by omega) (by omega)

/-- Decimal rendering of an integer, as JSON.stringify prints it. -/
def intChars (i : Int) : List Char :=
  if i < 0 then '-' :: natChars i.natAbs else natChars i.natAbs

/-- The given number of space characters, for the two-space indent. -/
def spaces (n : Nat) : List Char :=
  List.replicate n ' '

mutual
/-- Pretty rendering with the surrounding indent level, matching
JSON.stringify(value, null, 2): children of a non-empty array or object are
each on their own line, indented two further spaces. -/
def renderV (ind : Nat) : Json → List Char
  | .null => 'n' :: 'u' :: 'l' :: 'l' :: []
  | .bool true => 't' :: 'r' :: 'u' :: 'e' :: []
  | .bool false => 'f' :: 'a' :: 'l' :: 's' :: 'e' :: []
  | .num i => intChars i
  | .str s => renderStr s
  | .arr [] => ['[', ']']
  | .arr (e :: es) =>
    '[' :: '\n' :: (renderItems (ind + 2) e es ++ '\n' :: (spaces ind ++ [']']))
  | .obj [] => ['{', '}']
  | .obj (m :: ms) =>
    '{' :: '\n' :: (renderMems (ind + 2) m ms ++ '\n' :: (spaces ind ++ ['}']))
termination_by j => sizeOf j
decreasing_by
all_goals simp_wf
all_goals try obtain ⟨a, b⟩ := m
all_goals try obtain ⟨a, b⟩ := x
all_goals try simp only [Prod.mk.sizeOf_spec]
all_goals omega

/-- The lines of a non-empty array body, comma-and-newline separated. -/
def renderItems (ind : Nat) (e : Json) : List Json → List Char
  | [] => spaces ind ++ renderV ind e
  | x :: xs => spaces ind ++ renderV ind e ++ ',' :: '\n' :: renderItems ind x xs
termination_by xs => sizeOf e + sizeOf xs
decreasing_by
all_goals simp_wf
all_goals try obtain ⟨a, b⟩ := m
all_goals try obtain ⟨a, b⟩ := x
all_goals try simp only [Prod.mk.sizeOf_spec]
all_goals omega

/-- The lines of a non-empty object body, comma-and-newline separated. -/
def renderMems (ind : Nat) (m : String × Json) : List (String × Json) → List Char
  | [] => spaces ind ++ renderStr m.1 ++ ':' :: ' ' :: renderV ind m.2
  | x :: xs =>
    spaces ind ++ renderStr m.1 ++ ':' :: ' ' :: renderV ind m.2
      ++ ',' :: '\n' :: renderMems ind x xs
termination_by xs => sizeOf m.2 + sizeOf xs
decreasing_by
all_goals simp_wf
all_goals try obtain ⟨a, b⟩ := m
all_goals try obtain ⟨a, b⟩ := x
all_goals try simp only [Prod.mk.sizeOf_spec]
all_goals omega
end

/-- JSON.stringify(value, null, 2). -/
def jsonStringify (v : Json) : String :=
  ⟨renderV 0 v⟩

/-! ### Parsing: an executable JSON.parse for the grammar the source emits -/

/-- JSON whitespace. -/
def isWsChar (c : Char) : Bool :=
  c = ' ' || c = '\n' || c = '\t' || c = '\r'

/-- Drop leading whitespace. -/
def skipWs : List Char → List Char
  | c :: cs => if isWsChar c then skipWs cs else c :: cs
  | [] => []

/-- Decimal digit test. -/
def isDigitChar (c : Char) : Bool :=
  '0' ≤ c && c ≤ '9'

/-- Split off the longest leading run of decimal digits. -/
def takeDigits : List Char → List Char × List Char
  | c :: cs =>
    if isDigitChar c then
      let (ds, r) := takeDigits cs
      (c :: ds, r)
    else ([], c :: cs)
  | [] => ([], [])

/-- Value of a digit run, most significant first. -/
def digitsToNat (ds : List Char) : Nat :=
  ds.foldl (fun a c => a * 10 + (c.toNat - '0'.toNat)) 0

/-- Parse an optionally-signed decimal integer. -/
def parseIntL (cs : List Char) : Option (Int × List Char) :=
  match cs with
  | '-' :: r =>
    let (ds, r') := takeDigits r
    if ds.isEmpty then none else some (-(digitsToNat ds : Int), r')
  | _ =>
    let (ds, r') := takeDigits cs
    if ds.isEmpty then none else some ((digitsToNat ds : Int), r')

/-- Value of one hexadecimal digit character. -/
def hexVal (c : Char) : Option Nat :=
  let n := c.toNat
  if 48 ≤ n && n ≤ 57 then some (n - 48)
  else if 97 ≤ n && n ≤ 102 then some (n - 87)
  else if 65 ≤ n && n ≤ 70 then some (n - 55)
  else none

/-- Value of a four-hex-digit escape. -/
def hex4 (a b c d : Char) : Option Nat := do
  let va ← hexVal a
  let vb ← hexVal b
  let vc ← hexVal c
  let vd ← hexVal d
  some (((va * 16 + vb) * 16 + vc) * 16 + vd)

/-- The character named by a single-character escape. -/
def unescapeChar : Char → Option Char
  | '"' => .some '"'
  | '\\' => .some '\\'
  | '/' => .some '/'
  | 'n' => .some '\n'
  | 'r' => .some '\r'
  | 't' => .some '\t'
  | 'b' => .some (Char.ofNat 8)
  | 'f' => .some (Char.ofNat 12)
  | _ => .none

/-- Parse the body of a string literal, after the opening quote, up to and
including the closing quote. -/
def parseStrL : List Char → Option (List Char × List Char)
  | [] => none
  | '"' :: rest => some ([], rest)
  | '\\' :: rest =>
    match rest with
    | 'u' :: a :: b :: c :: d :: rest' => do
      let n ← hex4 a b c d
      let (s, r) ← parseStrL rest'
      some (Char.ofNat n :: s, r)
    | e :: rest' => do
      let ch ← unescapeChar e
      let (s, r) ← parseStrL rest'
      some (ch :: s, r)
    | [] => none
  | c :: rest => (parseStrL rest).map fun sr => (c :: sr.1, sr.2)

mutual
/-- Parse one JSON value, whitespace-insensitively; the fuel only bounds
recursion depth and is in surplus whenever it exceeds the input length. -/
def parseVal : Nat → List Char → Option (Json × List Char)
  | 0, _ => none
  | fuel + 1, cs =>
    match skipWs cs with
    | 'n' :: 'u' :: 'l' :: 'l' :: r => some (.null, r)
    | 't' :: 'r' :: 'u' :: 'e' :: r => some (.bool true, r)
    | 'f' :: 'a' :: 'l' :: 's' :: 'e' :: r => some (.bool false, r)
    | '"' :: r => (parseStrL r).map fun sr => (.str ⟨sr.1⟩, sr.2)
    | '[' :: r =>
      match skipWs r with
      | ']' :: r' => some (.arr [], r')
      | r1 => (parseElems fuel r1).map fun er => (.arr er.1, er.2)
    | '{' :: r =>
      match skipWs r with
      | '}' :: r' => some (.obj [], r')
      | r1 => (parseMembers fuel r1).map fun mr => (.obj mr.1, mr.2)
    | c :: r =>
      if c = '-' || isDigitChar c then
        (parseIntL (c :: r)).map fun ir => (.num ir.1, ir.2)
      else none
    | [] => none

/-- Parse one or more comma-separated array elements up to the closing
bracket. -/
def parseElems : Nat → List Char → Option (List Json × List Char)
  | 0, _ => none
  | fuel + 1, cs =>
    match parseVal fuel cs with
    | none => none
    | some (v, r) =>
      match skipWs r with
      | ',' :: r' => (parseElems fuel r').map fun er => (v :: er.1, er.2)
      | ']' :: r' => some ([v], r')
      | _ => none

/-- Parse one or more comma-separated object members up to the closing
brace. -/
def parseMembers : Nat → List Char → Option (List (String × Json) × List Char)
  | 0, _ => none
  | fuel + 1, cs =>
    match skipWs cs with
    | '"' :: r =>
      match parseStrL r with
      | none => none
      | some (k, r1) =>
        match skipWs r1 with
        | ':' :: r2 =>
          match parseVal fuel r2 with
          | none => none
          | some (v, r3) =>
            match skipWs r3 with
            | ',' :: r4 => (parseMembers fuel r4).map fun mr => ((⟨k⟩, v) :: mr.1, mr.2)
            | '}' :: r4 => some ([(⟨k⟩, v)], r4)
            | _ => none
        | _ => none
    | _ => none
end

/-- Parse a complete JSON document: one value and trailing whitespace. -/
def Json.parse (s : String) : Option Json :=
  match parseVal (s.data.length + 1) s.data with
  | some (v, r) => if skipWs r = [] then some v else none
  | none => none

/-- A remainder that cannot extend a parsed number: empty or not starting
with a digit. Every character following a number in rendered output (comma,
newline, closing bracket or brace, end of input) qualifies. -/
def numDelim : List Char → Bool
  | [] => true
  | c :: _ => !isDigitChar c

/-! ### src/utils/safety.ts -/

/-- The MCP risk-annotation record attached to each registered tool; the
idempotent hint is optional and absent on the read-only record. -/
structure ToolAnnotations where
  readOnlyHint : Bool
  destructiveHint : Bool
  idempotentHint : Option Bool
deriving DecidableEq, Repr

def READ_ONLY : ToolAnnotations :=
  { readOnlyHint := true, destructiveHint := false, idempotentHint := none }

def WRITE : ToolAnnotations :=
  { readOnlyHint := false, destructiveHint := false, idempotentHint := some true }

def WRITE_NOT_IDEMPOTENT : ToolAnnotations :=
  { readOnlyHint := false, destructiveHint := false, idempotentHint := some false }

def DESTRUCTIVE : ToolAnnotations :=
  { readOnlyHint := false, destructiveHint := true, idempotentHint := some false }

/-- One text content item of a tool result. -/
structure TextContent where
  type : String
  text : String
deriving DecidableEq, Repr

/-- A tool result envelope; isError is none when the field is absent. -/
structure ToolResult where
  content : List TextContent
  isError : Option Bool
deriving DecidableEq, Repr

/-- A text content item, as every envelope in the source builds them. -/
def textContent (t : String) : TextContent :=
  { type := "text", text := t }

/-- The preview object formatDryRun builds before serializing: the body key
of wouldExecute is present exactly when a body argument was passed. -/
def dryRunPreview (method path : String) (body : Option Json) : Json :=
  .obj [("dryRun", .bool true),
        ("wouldExecute", .obj
          ([("method", .str method), ("path", .str path)]
            ++ match body with
               | some b => [("body", b)]
               | none => []))]

/-- formatDryRun from src/utils/safety.ts: a success envelope whose single
text content is the pretty-printed preview. -/
def formatDryRun (method path : String) (body : Option Json) : ToolResult :=
  { content := [textContent (jsonStringify (dryRunPreview method path body))],
    isError := none }

/-- requireConfirmation from src/utils/safety.ts. The source returns null to
mean "proceed"; the embedding returns none. -/
def requireConfirmation (confirm : Option Bool) (action : String) : Option ToolResult :=
  if confirm ≠ some true then
    some { content := [textContent ("This action requires explicit confirmation: " ++ action
             ++ ". Re-invoke with confirm: true to proceed.")],
           isError := some true }
  else none

/-- JS truthiness of an optional boolean: only the value true is truthy. -/
def truthy (b : Option Bool) : Bool :=
  b == some true

/-! ### src/utils/responses.ts (not under src/) -/

/-- Modelled from the spec: src/utils/responses.ts is missing from the
sources (only its tests and call sites are present). Per the spec, a success
wraps the data as JSON text content; the tests pin the text to
JSON.stringify(data, null, 2). -/
def formatSuccess (data : Json) : ToolResult :=
  { content := [textContent (jsonStringify data)], isError := none }

/-- Modelled from the spec: src/utils/responses.ts is missing from the
sources. Per the spec, a downstream failure is wrapped into the same
structured error envelope shape with the message extracted; the tests pin
the text to "Error: " followed by the message. -/
def formatError (message : String) : ToolResult :=
  { content := [textContent ("Error: " ++ message)], isError := some true }

/-! ### src/utils/query.ts -/

/-- Upper-case hex digit, as URLSearchParams percent-encodes. -/
def hexDigitUpper (n : Nat) : Char :=
  if n < 10 then Char.ofNat ('0'.toNat + n) else Char.ofNat ('A'.toNat + (n - 10))

/-- UTF-8 bytes of one character. -/
def utf8Bytes (c : Char) : List Nat :=
  let n := c.toNat
  if n < 128 then [n]
  else if n < 2048 then [192 + n / 64, 128 + n % 64]
  else if n < 65536 then [224 + n / 4096, 128 + n / 64 % 64, 128 + n % 64]
  else [240 + n / 262144, 128 + n / 4096 % 64, 128 + n / 64 % 64, 128 + n % 64]

/-- Percent-encoding of one byte. -/
def percentByte (b : Nat) : List Char :=
  ['%', hexDigitUpper (b / 16), hexDigitUpper (b % 16)]

/-- Characters application/x-www-form-urlencoded leaves as themselves. -/
def isFormUnreserved (c : Char) : Bool :=
  ('0' ≤ c && c ≤ '9') || ('A' ≤ c && c ≤ 'Z') || ('a' ≤ c && c ≤ 'z')
    || c = '*' || c = '-' || c = '.' || c = '_'

/-- One character under form-urlencoding: unreserved characters stand,
space becomes '+', everything else is percent-encoded per UTF-8 byte. -/
def formUrlEncodeChar (c : Char) : List Char :=
  if isFormUnreserved c then [c]
  else if c = ' ' then ['+']
  else ((utf8Bytes c).map percentByte).flatten

/-- application/x-www-form-urlencoded serialization of one string. -/
def formUrlEncode (s : String) : String :=
  ⟨(s.data.map formUrlEncodeChar).flatten⟩

/-- URLSearchParams model: an insertion-ordered list of key/value pairs.
set appends here because buildQuery never sets the same key twice. -/
def setParam (ps : List (String × String)) (k v : String) : List (String × String) :=
  ps ++ [(k, v)]

/-- Join with ampersands, as URLSearchParams.toString separates pairs. -/
def joinAmp : List String → String
  | [] => ""
  | [x] => x
  | x :: xs => x ++ "&" ++ joinAmp xs

/-- URLSearchParams.toString: pairs form-urlencoded and joined with &. -/
def paramsToString (ps : List (String × String)) : String :=
  joinAmp (ps.map fun kv => formUrlEncode kv.1 ++ "=" ++ formUrlEncode kv.2)

/-- String(n) for the integer inputs buildQuery stringifies. -/
def intToString (i : Int) : String :=
  ⟨intChars i⟩

/-- buildQuery from src/utils/query.ts: offset, limit and filter are added
in that order exactly when defined, and a non-empty parameter string is
prefixed with a question mark. -/
def buildQuery (offset limit : Option Int) (filter : Option String) : String :=
  let searchParams : List (String × String) := []
  let searchParams :=
    match offset with
    | some o => setParam searchParams "offset" (intToString o)
    | none => searchParams
  let searchParams :=
    match limit with
    | some l => setParam searchParams "limit" (intToString l)
    | none => searchParams
  let searchParams :=
    match filter with
    | some f => setParam searchParams "filter" f
    | none => searchParams
  let qs := paramsToString searchParams
  if qs = "" then "" else "?" ++ qs

/-! ### src/config.ts -/

/-- The parsed configuration. -/
structure Config where
  host : String
  apiKey : String
  verifySsl : Bool
  readOnly : Bool
deriving DecidableEq, Repr

/-- The process environment slots loadConfig reads; none models an unset
variable. -/
structure EnvVars where
  host : Option String
  apiKey : Option String
  verifySsl : Option String
  readOnly : Option String
deriving DecidableEq, Repr

/-- loadConfig from src/config.ts: verifySsl and readOnly are computed as
value?.toLowerCase() !== "false" before validation, so both are true
whenever the variable is unset; host and apiKey must be non-empty strings
or the schema rejects (the source then exits, modelled as none). -/
def loadConfig (env : EnvVars) : Option Config :=
  match env.host, env.apiKey with
  | some h, some k =>
    if 1 ≤ h.length ∧ 1 ≤ k.length then
      some { host := h, apiKey := k,
             verifySsl := !(env.verifySsl.map String.toLower == some "false"),
             readOnly := !(env.readOnly.map String.toLower == some "false") }
    else none
  | _, _ => none

/-! ### src/client.ts and the handlers under test

The network collaborator is a behaviour from requests to results. Each
embedded handler returns its result together with the list of requests it
issued, so dry-run/confirmation side-effect freedom is the emptiness of
that list. NetworkClient.request only attaches a body when one is passed,
which is why the traced DELETE verb carries none. -/

/-- One HTTP request as NetworkClient.request would issue it. -/
structure NetworkCall where
  method : String
  path : String
  body : Option Json
deriving Repr

/-- The downstream behaviour: a response or a rejection message per call. -/
def ClientBehavior : Type :=
  NetworkCall → Except String Json

/-- client.get(path), with the call it issues. -/
def tracedGet (client : ClientBehavior) (path : String) : Except String Json × NetworkCall :=
  let c : NetworkCall := { method := "GET", path := path, body := none }
  (client c, c)

/-- client.post(path, body), with the call it issues. -/
def tracedPost (client : ClientBehavior) (path : String) (body : Option Json) :
    Except String Json × NetworkCall :=
  let c : NetworkCall := { method := "POST", path := path, body := body }
  (client c, c)

/-- client.delete(path), with the call it issues; request sends no body. -/
def tracedDelete (client : ClientBehavior) (path : String) : Except String Json × NetworkCall :=
  let c : NetworkCall := { method := "DELETE", path := path, body := none }
  (client c, c)

/-- Wrap a downstream outcome the way every handler's try/catch does. -/
def wrapOutcome (res : Except String Json) : ToolResult :=
  match res with
  | .ok data => formatSuccess data
  | .error e => formatError e

structure ListNetworksArgs where
  siteId : String
  offset : Option Int
  limit : Option Int
  filter : Option String

/-- Handler of unifi_list_networks (src/tools/networks.ts). -/
def unifi_list_networks_handler (client : ClientBehavior) (a : ListNetworksArgs) :
    ToolResult × List NetworkCall :=
  let query := buildQuery a.offset a.limit a.filter
  let (res, call) := tracedGet client ("/sites/" ++ a.siteId ++ "/networks" ++ query)
  (wrapOutcome res, [call])

structure CreateNetworkArgs where
  siteId : String
  name : String
  management : String
  enabled : Bool
  vlanId : Int
  dryRun : Option Bool

/-- Handler of unifi_create_network (src/tools/networks.ts). -/
def unifi_create_network_handler (client : ClientBehavior) (a : CreateNetworkArgs) :
    ToolResult × List NetworkCall :=
  let body : Json := .obj [("name", .str a.name), ("management", .str a.management),
                           ("enabled", .bool a.enabled), ("vlanId", .num a.vlanId)]
  if truthy a.dryRun then
    (formatDryRun "POST" ("/sites/" ++ a.siteId ++ "/networks") (some body), [])
  else
    let (res, call) := tracedPost client ("/sites/" ++ a.siteId ++ "/networks") (some body)
    (wrapOutcome res, [call])

structure DeleteNetworkArgs where
  siteId : String
  networkId : String
  force : Bool
  confirm : Option Bool
  dryRun : Option Bool

/-- Handler of unifi_delete_network (src/tools/networks.ts): the
confirmation guard runs first, then force may extend the path, then the
dry-run check, then the real call. -/
def unifi_delete_network_handler (client : ClientBehavior) (a : DeleteNetworkArgs) :
    ToolResult × List NetworkCall :=
  match requireConfirmation a.confirm
      "This will delete the network and disconnect all clients on it" with
  | some guard => (guard, [])
  | none =>
    let path := "/sites/" ++ a.siteId ++ "/networks/" ++ a.networkId
    let path := if a.force then path ++ "?force=true" else path
    if truthy a.dryRun then (formatDryRun "DELETE" path none, [])
    else
      let (res, call) := tracedDelete client path
      (wrapOutcome res, [call])

structure AdoptDeviceArgs where
  siteId : String
  macAddress : String
  dryRun : Option Bool

/-- Handler of unifi_adopt_device (src/tools/devices.ts). -/
def unifi_adopt_device_handler (client : ClientBehavior) (a : AdoptDeviceArgs) :
    ToolResult × List NetworkCall :=
  let body : Json := .obj [("macAddress", .str a.macAddress),
                           ("ignoreDeviceLimit", .bool false)]
  if truthy a.dryRun then
    (formatDryRun "POST" ("/sites/" ++ a.siteId ++ "/devices") (some body), [])
  else
    let (res, call) := tracedPost client ("/sites/" ++ a.siteId ++ "/devices") (some body)
    (wrapOutcome res, [call])

structure RemoveDeviceArgs where
  siteId : String
  deviceId : String
  confirm : Option Bool
  dryRun : Option Bool

/-- Handler of unifi_remove_device (src/tools/devices.ts): the dry-run
branch passes an empty object to the formatter; the real call is
client.delete, which sends no body. -/
def unifi_remove_device_handler (client : ClientBehavior) (a : RemoveDeviceArgs) :
    ToolResult × List NetworkCall :=
  match requireConfirmation a.confirm
      "This will remove the device from the site. If the device is online, it will be reset to factory defaults" with
  | some guard => (guard, [])
  | none =>
    if truthy a.dryRun then
      (formatDryRun "DELETE" ("/sites/" ++ a.siteId ++ "/devices/" ++ a.deviceId)
        (some (.obj [])), [])
    else
      let (res, call) := tracedDelete client ("/sites/" ++ a.siteId ++ "/devices/" ++ a.deviceId)
      (wrapOutcome res, [call])

structure DeleteVoucherArgs where
  siteId : String
  voucherId : String
  confirm : Option Bool
  dryRun : Option Bool

/-- Handler of unifi_delete_voucher (src/tools/hotspot.ts). -/
def unifi_delete_voucher_handler (client : ClientBehavior) (a : DeleteVoucherArgs) :
    ToolResult × List NetworkCall :=
  match requireConfirmation a.confirm "This will permanently delete the voucher" with
  | some guard => (guard, [])
  | none =>
    let path := "/sites/" ++ a.siteId ++ "/hotspot/vouchers/" ++ a.voucherId
    if truthy a.dryRun then (formatDryRun "DELETE" path none, [])
    else
      let (res, call) := tracedDelete client path
      (wrapOutcome res, [call])

structure BulkDeleteVouchersArgs where
  siteId : String
  filter : String
  confirm : Option Bool
  dryRun : Option Bool

/-- Handler of unifi_bulk_delete_vouchers (src/tools/hotspot.ts): the
guard sits inside the try block but still runs before everything else. -/
def unifi_bulk_delete_vouchers_handler (client : ClientBehavior) (a : BulkDeleteVouchersArgs) :
    ToolResult × List NetworkCall :=
  match requireConfirmation a.confirm "This will delete all vouchers matching the filter" with
  | some guard => (guard, [])
  | none =>
    let query := buildQuery none none (some a.filter)
    let path := "/sites/" ++ a.siteId ++ "/hotspot/vouchers" ++ query
    if truthy a.dryRun then (formatDryRun "DELETE" path none, [])
    else
      let (res, call) := tracedDelete client path
      (wrapOutcome res, [call])

structure DeleteAclRuleArgs where
  siteId : String
  aclRuleId : String
  confirm : Option Bool
  dryRun : Option Bool

/-- Handler of unifi_delete_acl_rule (src/tools/acl.ts): the dry-run branch
passes an empty object to the formatter; the real call sends no body. -/
def unifi_delete_acl_rule_handler (client : ClientBehavior) (a : DeleteAclRuleArgs) :
    ToolResult × List NetworkCall :=
  match requireConfirmation a.confirm "This will delete the ACL rule" with
  | some guard => (guard, [])
  | none =>
    if truthy a.dryRun then
      (formatDryRun "DELETE" ("/sites/" ++ a.siteId ++ "/acl-rules/" ++ a.aclRuleId)
        (some (.obj [])), [])
    else
      let (res, call) := tracedDelete client ("/sites/" ++ a.siteId ++ "/acl-rules/" ++ a.aclRuleId)
      (wrapOutcome res, [call])

/-! ### Tool registration (src/tools/*.ts)

Each register function is embedded as the ordered list of registrations it
performs: the tool name, the keys of its declared input schema, and its
annotations. The early return gate on the mode flag is kept: the write
registrations only happen when readOnly is false. -/

/-- One registration a register function hands to the MCP server. -/
structure ToolReg where
  name : String
  inputFields : List String
  annotations : ToolAnnotations
deriving DecidableEq, Repr

/-- registerSystemTools (src/tools/system.ts): read-only, no gate. -/
def registerSystemTools : List ToolReg :=
  [⟨"unifi_get_info", [], READ_ONLY⟩]

/-- registerSiteTools (src/tools/sites.ts): read-only, no gate. -/
def registerSiteTools : List ToolReg :=
  [⟨"unifi_list_sites", ["offset", "limit", "filter"], READ_ONLY⟩]

/-- registerDeviceTools (src/tools/devices.ts). -/
def registerDeviceTools (readOnly : Bool) : List ToolReg :=
  [⟨"unifi_list_devices", ["siteId", "offset", "limit", "filter"], READ_ONLY⟩,
   ⟨"unifi_get_device", ["siteId", "deviceId"], READ_ONLY⟩,
   ⟨"unifi_get_device_statistics", ["siteId", "deviceId"], READ_ONLY⟩,
   ⟨"unifi_list_pending_devices", ["offset", "limit", "filter"], READ_ONLY⟩]
  ++ if readOnly then [] else
  [⟨"unifi_adopt_device", ["siteId", "macAddress", "dryRun"], WRITE_NOT_IDEMPOTENT⟩,
   ⟨"unifi_remove_device", ["siteId", "deviceId", "confirm", "dryRun"], DESTRUCTIVE⟩,
   ⟨"unifi_restart_device", ["siteId", "deviceId", "dryRun"], WRITE⟩,
   ⟨"unifi_power_cycle_port", ["siteId", "deviceId", "portIdx", "dryRun"], WRITE⟩]

/-- registerClientTools (src/tools/clients.ts). -/
def registerClientTools (readOnly : Bool) : List ToolReg :=
  [⟨"unifi_list_clients", ["siteId", "offset", "limit", "filter"], READ_ONLY⟩,
   ⟨"unifi_get_client", ["siteId", "clientId"], READ_ONLY⟩]
  ++ if readOnly then [] else
  [⟨"unifi_authorize_guest",
     ["siteId", "clientId", "timeLimitMinutes", "dataUsageLimitMBytes",
      "rxRateLimitKbps", "txRateLimitKbps", "dryRun"], WRITE_NOT_IDEMPOTENT⟩,
   ⟨"unifi_unauthorize_guest", ["siteId", "clientId", "dryRun"], WRITE⟩]

/-- registerNetworkTools (src/tools/networks.ts). -/
def registerNetworkTools (readOnly : Bool) : List ToolReg :=
  [⟨"unifi_list_networks", ["siteId", "offset", "limit", "filter"], READ_ONLY⟩,
   ⟨"unifi_get_network", ["siteId", "networkId"], READ_ONLY⟩,
   ⟨"unifi_get_network_references", ["siteId", "networkId"], READ_ONLY⟩]
  ++ if readOnly then [] else
  [⟨"unifi_create_network",
     ["siteId", "name", "management", "enabled", "vlanId", "dryRun"], WRITE_NOT_IDEMPOTENT⟩,
   ⟨"unifi_update_network",
     ["siteId", "networkId", "name", "management", "enabled", "vlanId", "dryRun"], WRITE⟩,
   ⟨"unifi_delete_network",
     ["siteId", "networkId", "force", "confirm", "dryRun"], DESTRUCTIVE⟩]

/-- registerWifiTools (src/tools/wifi.ts). -/
def registerWifiTools (readOnly : Bool) : List ToolReg :=
  [⟨"unifi_list_wifi", ["siteId", "offset", "limit", "filter"], READ_ONLY⟩,
   ⟨"unifi_get_wifi", ["siteId", "wifiBroadcastId"], READ_ONLY⟩]
  ++ if readOnly then [] else
  [⟨"unifi_create_wifi",
     ["siteId", "name", "enabled", "type", "broadcastingFrequenciesGHz", "dryRun"],
     WRITE_NOT_IDEMPOTENT⟩,
   ⟨"unifi_update_wifi", ["siteId", "wifiBroadcastId", "name", "enabled", "dryRun"], WRITE⟩,
   ⟨"unifi_delete_wifi",
     ["siteId", "wifiBroadcastId", "force", "confirm", "dryRun"], DESTRUCTIVE⟩]

/-- registerHotspotTools (src/tools/hotspot.ts). -/
def registerHotspotTools (readOnly : Bool) : List ToolReg :=
  [⟨"unifi_list_vouchers", ["siteId", "offset", "limit", "filter"], READ_ONLY⟩,
   ⟨"unifi_get_voucher", ["siteId", "voucherId"], READ_ONLY⟩]
  ++ if readOnly then [] else
  [⟨"unifi_create_voucher",
     ["siteId", "name", "timeLimitMinutes", "count", "authorizedGuestLimit",
      "dataUsageLimitMBytes", "rxRateLimitKbps", "txRateLimitKbps", "dryRun"],
     WRITE_NOT_IDEMPOTENT⟩,
   ⟨"unifi_delete_voucher", ["siteId", "voucherId", "confirm", "dryRun"], DESTRUCTIVE⟩,
   ⟨"unifi_bulk_delete_vouchers", ["siteId", "filter", "confirm", "dryRun"], DESTRUCTIVE⟩]

/-- registerFirewallTools (src/tools/firewall.ts). -/
def registerFirewallTools (readOnly : Bool) : List ToolReg :=
  [⟨"unifi_list_firewall_zones", ["siteId", "offset", "limit", "filter"], READ_ONLY⟩,
   ⟨"unifi_get_firewall_zone", ["siteId", "firewallZoneId"], READ_ONLY⟩,
   ⟨"unifi_list_firewall_policies", ["siteId", "offset", "limit", "filter"], READ_ONLY⟩,
   ⟨"unifi_get_firewall_policy", ["siteId", "firewallPolicyId"], READ_ONLY⟩,
   ⟨"unifi_get_firewall_policy_ordering",
     ["siteId", "sourceFirewallZoneId", "destinationFirewallZoneId"], READ_ONLY⟩]
  ++ if readOnly then [] else
  [⟨"unifi_create_firewall_zone", ["siteId", "name", "networkIds", "dryRun"],
     WRITE_NOT_IDEMPOTENT⟩,
   ⟨"unifi_update_firewall_zone",
     ["siteId", "firewallZoneId", "name", "networkIds", "dryRun"], WRITE⟩,
   ⟨"unifi_delete_firewall_zone",
     ["siteId", "firewallZoneId", "confirm", "dryRun"], DESTRUCTIVE⟩,
   ⟨"unifi_create_firewall_policy", ["siteId", "policy", "dryRun"], WRITE_NOT_IDEMPOTENT⟩,
   ⟨"unifi_update_firewall_policy", ["siteId", "firewallPolicyId", "policy", "dryRun"], WRITE⟩,
   ⟨"unifi_patch_firewall_policy", ["siteId", "firewallPolicyId", "policy", "dryRun"], WRITE⟩,
   ⟨"unifi_delete_firewall_policy",
     ["siteId", "firewallPolicyId", "confirm", "dryRun"], DESTRUCTIVE⟩,
   ⟨"unifi_reorder_firewall_policies",
     ["siteId", "sourceFirewallZoneId", "destinationFirewallZoneId",
      "orderedFirewallPolicyIds", "dryRun"], WRITE⟩]

/-- registerAclTools (src/tools/acl.ts). -/
def registerAclTools (readOnly : Bool) : List ToolReg :=
  [⟨"unifi_list_acl_rules", ["siteId", "offset", "limit", "filter"], READ_ONLY⟩,
   ⟨"unifi_get_acl_rule", ["siteId", "aclRuleId"], READ_ONLY⟩,
   ⟨"unifi_get_acl_rule_ordering", ["siteId"], READ_ONLY⟩]
  ++ if readOnly then [] else
  [⟨"unifi_create_acl_rule",
     ["siteId", "type", "name", "enabled", "action", "description",
      "protocolFilter", "dryRun"], WRITE_NOT_IDEMPOTENT⟩,
   ⟨"unifi_update_acl_rule", ["siteId", "aclRuleId", "rule", "dryRun"], WRITE⟩,
   ⟨"unifi_delete_acl_rule", ["siteId", "aclRuleId", "confirm", "dryRun"], DESTRUCTIVE⟩,
   ⟨"unifi_reorder_acl_rules", ["siteId", "orderedAclRuleIds", "dryRun"], WRITE⟩]

/-- registerDnsPolicyTools (src/tools/dns-policies.ts). -/
def registerDnsPolicyTools (readOnly : Bool) : List ToolReg :=
  [⟨"unifi_list_dns_policies", ["siteId", "offset", "limit", "filter"], READ_ONLY⟩,
   ⟨"unifi_get_dns_policy", ["siteId", "dnsPolicyId"], READ_ONLY⟩]
  ++ if readOnly then [] else
  [⟨"unifi_create_dns_policy", ["siteId", "policy", "dryRun"], WRITE_NOT_IDEMPOTENT⟩,
   ⟨"unifi_update_dns_policy", ["siteId", "dnsPolicyId", "policy", "dryRun"], WRITE⟩,
   ⟨"unifi_delete_dns_policy", ["siteId", "dnsPolicyId", "confirm", "dryRun"], DESTRUCTIVE⟩]

/-- registerTrafficMatchingTools (src/tools/traffic-matching.ts). -/
def registerTrafficMatchingTools (readOnly : Bool) : List ToolReg :=
  [⟨"unifi_list_traffic_matching_lists", ["siteId", "offset", "limit", "filter"], READ_ONLY⟩,
   ⟨"unifi_get_traffic_matching_list", ["siteId", "trafficMatchingListId"], READ_ONLY⟩]
  ++ if readOnly then [] else
  [⟨"unifi_create_traffic_matching_list",
     ["siteId", "type", "name", "items", "dryRun"], WRITE_NOT_IDEMPOTENT⟩,
   ⟨"unifi_update_traffic_matching_list",
     ["siteId", "trafficMatchingListId", "type", "name", "items", "dryRun"], WRITE⟩,
   ⟨"unifi_delete_traffic_matching_list",
     ["siteId", "trafficMatchingListId", "confirm", "dryRun"], DESTRUCTIVE⟩]

/-- registerSupportingTools (src/tools/supporting.ts): read-only, no gate. -/
def registerSupportingTools : List ToolReg :=
  [⟨"unifi_list_wans", ["siteId", "offset", "limit"], READ_ONLY⟩,
   ⟨"unifi_list_vpn_tunnels", ["siteId", "offset", "limit", "filter"], READ_ONLY⟩,
   ⟨"unifi_list_vpn_servers", ["siteId", "offset", "limit", "filter"], READ_ONLY⟩,
   ⟨"unifi_list_radius_profiles", ["siteId", "offset", "limit", "filter"], READ_ONLY⟩,
   ⟨"unifi_list_device_tags", ["siteId", "offset", "limit", "filter"], READ_ONLY⟩,
   ⟨"unifi_list_dpi_categories", ["offset", "limit", "filter"], READ_ONLY⟩,
   ⟨"unifi_list_dpi_applications", ["offset", "limit", "filter"], READ_ONLY⟩,
   ⟨"unifi_list_countries", ["offset", "limit", "filter"], READ_ONLY⟩]

/-- registerAllTools (src/tools/index.ts): every domain group in source
order, the same mode flag passed to each gated group. -/
def registerAllTools (readOnly : Bool) : List ToolReg :=
  registerSystemTools
    ++ registerSiteTools
    ++ registerDeviceTools readOnly
    ++ registerClientTools readOnly
    ++ registerNetworkTools readOnly
    ++ registerWifiTools readOnly
    ++ registerHotspotTools readOnly
    ++ registerFirewallTools readOnly
    ++ registerAclTools readOnly
    ++ registerDnsPolicyTools readOnly
    ++ registerTrafficMatchingTools readOnly
    ++ registerSupportingTools

/-- The registered tool names, in registration order. -/
def toolNames (readOnly : Bool) : List String :=
  (registerAllTools readOnly).map ToolReg.name

/-- Substring containment, expressed over the character lists. -/
def strContainsSub (s sub : String) : Prop :=
  ∃ a b, s.data = a ++ sub.data ++ b

/-- Stated from the claim on buildQuery: the query text it expects is the
provided parameters, URL-encoded, in the order offset, limit, filter. -/
def claimedQuery (offset limit : Option Int) (filter : Option String) : String :=
  joinAmp
    ((match offset with
      | some o => ["offset=" ++ formUrlEncode (intToString o)]
      | none => [])
     ++ (match limit with
         | some l => ["limit=" ++ formUrlEncode (intToString l)]
         | none => [])
     ++ (match filter with
         | some f => ["filter=" ++ formUrlEncode f]
         | none => []))


/-! ## Theorems -/

/-- With any confirm other than strictly true, requireConfirmation yields
the explicit guard envelope. -/
theorem requireConfirmation_not_true {confirm : Option Bool} (action : String)
    (h : confirm ≠ some true) :
    requireConfirmation confirm action
      = some { content := [textContent ("This action requires explicit confirmation: "
                 ++ action ++ ". Re-invoke with confirm: true to proceed.")],
               isError := some true } := by
  simp [requireConfirmation, h]

/-- With confirm strictly true, requireConfirmation yields none. -/
theorem requireConfirmation_true (action : String) :
    requireConfirmation (some true) action = none := by
  simp [requireConfirmation]

/-- C1: requireConfirmation returns null exactly when confirm is strictly
true; any other value yields an error envelope whose text contains the
action description and the instruction to re-invoke with confirm: true. -/
theorem requireConfirmation_gate (confirm : Option Bool) (action : String) :
    (requireConfirmation confirm action = none ↔ confirm = some true)
    ∧ (confirm ≠ some true →
        ∃ env, requireConfirmation confirm action = some env
          ∧ env.isError = some true
          ∧ ∃ tc, env.content = [tc]
            ∧ strContainsSub tc.text action
            ∧ strContainsSub tc.text "Re-invoke with confirm: true") := by
  constructor
  · by_cases h : confirm = some true <;> simp [requireConfirmation, h]
  · intro h
    refine ⟨⟨[textContent ("This action requires explicit confirmation: " ++ action
        ++ ". Re-invoke with confirm: true to proceed.")], some true⟩,
      by simp [requireConfirmation, h], rfl, _, rfl, ?_, ?_⟩
    · exact ⟨"This action requires explicit confirmation: ".data,
        (". Re-invoke with confirm: true to proceed.").data, by
          simp [textContent, String.data_append]⟩
    · refine ⟨"This action requires explicit confirmation: ".data ++ action.data ++ ". ".data,
        " to proceed.".data, ?_⟩
      have hsplit : (". Re-invoke with confirm: true to proceed.").data
          = ". ".data ++ "Re-invoke with confirm: true".data ++ " to proceed.".data := by decide
      simp [textContent, String.data_append, hsplit]

/-- C1 witness at confirm absent and confirm false. -/
theorem requireConfirmation_gate_witness :
    requireConfirmation none "remove device" ≠ none
    ∧ (∃ env, requireConfirmation (some false) "delete all" = some env
        ∧ env.isError = some true
        ∧ ∃ tc, env.content = [tc]
          ∧ strContainsSub tc.text "delete all"
          ∧ strContainsSub tc.text "Re-invoke with confirm: true") := by
  constructor
  · intro hn
    have := (requireConfirmation_gate none "remove device").1.mp hn
    simp at this
  · exact (requireConfirmation_gate (some false) "delete all").2 (by simp)


/-- C2: in every embedded destructive handler, a confirm value other than
strictly true makes the handler return the confirmation-guard envelope with
no network call issued, regardless of the dry-run flag: the result is the
guard error, not a preview, and the call trace is empty. -/
theorem destructive_handlers_confirm_gate_first (client : ClientBehavior)
    (a1 : RemoveDeviceArgs) (a2 : BulkDeleteVouchersArgs) (a3 : DeleteNetworkArgs) :
    (a1.confirm ≠ some true →
      ∃ env, requireConfirmation a1.confirm
          "This will remove the device from the site. If the device is online, it will be reset to factory defaults"
          = some env
        ∧ unifi_remove_device_handler client a1 = (env, [])
        ∧ env.isError = some true)
    ∧ (a2.confirm ≠ some true →
      ∃ env, requireConfirmation a2.confirm "This will delete all vouchers matching the filter"
          = some env
        ∧ unifi_bulk_delete_vouchers_handler client a2 = (env, [])
        ∧ env.isError = some true)
    ∧ (a3.confirm ≠ some true →
      ∃ env, requireConfirmation a3.confirm
          "This will delete the network and disconnect all clients on it" = some env
        ∧ unifi_delete_network_handler client a3 = (env, [])
        ∧ env.isError = some true) := by
  refine ⟨fun h => ⟨_, requireConfirmation_not_true _ h, ?_, rfl⟩,
    fun h => ⟨_, requireConfirmation_not_true _ h, ?_, rfl⟩,
    fun h => ⟨_, requireConfirmation_not_true _ h, ?_, rfl⟩⟩
  · simp [unifi_remove_device_handler, requireConfirmation_not_true _ h]
  · simp [unifi_bulk_delete_vouchers_handler, requireConfirmation_not_true _ h]
  · simp [unifi_delete_network_handler, requireConfirmation_not_true _ h]

/-- C2 witness: with confirm false and dryRun true, unifi_remove_device
still returns the guard error and issues no call. -/
theorem destructive_handlers_confirm_gate_first_witness :
    ∃ env, requireConfirmation (some false)
        "This will remove the device from the site. If the device is online, it will be reset to factory defaults"
        = some env
      ∧ unifi_remove_device_handler (fun _ => Except.ok Json.null)
          ⟨"site1", "dev1", some false, some true⟩ = (env, [])
      ∧ env.isError = some true :=
  (destructive_handlers_confirm_gate_first (fun _ => Except.ok Json.null)
    ⟨"site1", "dev1", some false, some true⟩
    ⟨"site1", "expired.eq(true)", none, none⟩
    ⟨"site1", "net1", false, none, none⟩).1 (by simp)

/-- C3: on the embedded write handlers, dryRun true (with confirm true for
the destructive one) returns exactly the dry-run formatter preview of the
planned request, and the network call trace is empty. -/
theorem write_handlers_dry_run_side_effect_free (client : ClientBehavior)
    (a : CreateNetworkArgs) (b : AdoptDeviceArgs) (c : DeleteVoucherArgs) :
    (a.dryRun = some true →
      unifi_create_network_handler client a
        = (formatDryRun "POST" ("/sites/" ++ a.siteId ++ "/networks")
            (some (.obj [("name", .str a.name), ("management", .str a.management),
                         ("enabled", .bool a.enabled), ("vlanId", .num a.vlanId)])), []))
    ∧ (b.dryRun = some true →
      unifi_adopt_device_handler client b
        = (formatDryRun "POST" ("/sites/" ++ b.siteId ++ "/devices")
            (some (.obj [("macAddress", .str b.macAddress),
                         ("ignoreDeviceLimit", .bool false)])), []))
    ∧ (c.confirm = some true → c.dryRun = some true →
      unifi_delete_voucher_handler client c
        = (formatDryRun "DELETE"
            ("/sites/" ++ c.siteId ++ "/hotspot/vouchers/" ++ c.voucherId) none, [])) := by
  refine ⟨fun h => ?_, fun h => ?_, fun hc h => ?_⟩
  · simp [unifi_create_network_handler, truthy, h]
  · simp [unifi_adopt_device_handler, truthy, h]
  · simp [unifi_delete_voucher_handler, requireConfirmation, truthy, hc, h]

/-- C3 witness at concrete inputs for all three handlers. -/
theorem write_handlers_dry_run_side_effect_free_witness :
    (unifi_create_network_handler (fun _ => Except.ok Json.null)
        ⟨"s1", "Guest", "GATEWAY", true, 30, some true⟩
      = (formatDryRun "POST" ("/sites/" ++ "s1" ++ "/networks")
          (some (.obj [("name", .str "Guest"), ("management", .str "GATEWAY"),
                       ("enabled", .bool true), ("vlanId", .num 30)])), []))
    ∧ (unifi_delete_voucher_handler (fun _ => Except.ok Json.null)
        ⟨"s1", "v1", some true, some true⟩
      = (formatDryRun "DELETE" ("/sites/" ++ "s1" ++ "/hotspot/vouchers/" ++ "v1") none, [])) := by
  have h := write_handlers_dry_run_side_effect_free (fun _ => Except.ok Json.null)
    ⟨"s1", "Guest", "GATEWAY", true, 30, some true⟩
    ⟨"s1", "aa:bb", some true⟩
    ⟨"s1", "v1", some true, some true⟩
  exact ⟨h.1 rfl, h.2.2 rfl rfl⟩


/-- C8: the loaded readOnly flag is true exactly when the environment value
is not, lowercased, the string false; in particular unset gives true. -/
theorem loadConfig_readOnly_fail_safe (env : EnvVars) (cfg : Config) :
    (loadConfig env = some cfg →
      (cfg.readOnly = true ↔ ¬ env.readOnly.map String.toLower = some "false"))
    ∧ (env.readOnly = none → loadConfig env = some cfg → cfg.readOnly = true) := by
  have hro : loadConfig env = some cfg →
      cfg.readOnly = !(env.readOnly.map String.toLower == some "false") := by
    intro h
    rcases hH : env.host with _ | host <;> rcases hK : env.apiKey with _ | key <;>
      simp [loadConfig, hH, hK] at h
    obtain ⟨-, rfl⟩ := h
    rfl
  constructor
  · intro h
    rw [hro h]
    simp
  · intro hn h
    rw [hro h, hn]
    rfl

/-- C8 witness: a valid environment with the read-only variable unset loads
with readOnly true. -/
theorem loadConfig_readOnly_fail_safe_witness :
    loadConfig ⟨some "h", some "k", none, none⟩ = some ⟨"h", "k", true, true⟩
    ∧ (⟨"h", "k", true, true⟩ : Config).readOnly = true := by
  refine ⟨by decide, ?_⟩
  exact (loadConfig_readOnly_fail_safe ⟨some "h", some "k", none, none⟩
    ⟨"h", "k", true, true⟩).2 rfl (by decide)

/-- A string append is non-empty when its left part is. -/
theorem append_ne_empty_left {s : String} (t : String) (h : s ≠ "") : s ++ t ≠ "" := by
  intro hc
  apply h
  apply String.ext
  have hd := congrArg String.data hc
  rw [String.data_append] at hd
  have : s.data ++ t.data = ([] : List Char) := by simpa using hd
  simpa using (List.append_eq_nil.mp this).1


/-- A key=value line of a query string is never empty. -/
theorem line_ne_empty (k v : String) (hk : ¬ k = "") : k ++ "=" ++ v ≠ "" :=
  append_ne_empty_left _ (append_ne_empty_left _ hk)

/-- C10: buildQuery is empty exactly on three undefined parameters, and
otherwise is a question mark followed by the defined parameters,
URL-encoded, in the order offset, limit, filter; a defined offset of zero
is still included. -/
theorem buildQuery_spec :
    buildQuery none none none = ""
    ∧ (∀ (o l : Option Int) (f : Option String), ¬(o = none ∧ l = none ∧ f = none) →
        buildQuery o l f = "?" ++ claimedQuery o l f)
    ∧ buildQuery (some 0) none none = "?offset=0" := by
  have hmain : ∀ (o l : Option Int) (f : Option String),
      ¬(o = none ∧ l = none ∧ f = none) →
      buildQuery o l f = "?" ++ claimedQuery o l f := by
    intro o l f h
    rcases o with _ | o <;> rcases l with _ | l <;> rcases f with _ | f
    · exact absurd ⟨rfl, rfl, rfl⟩ h
    all_goals
      simp only [buildQuery, setParam, paramsToString, claimedQuery, List.map,
        List.nil_append, List.cons_append, List.append_nil, joinAmp]
    all_goals
      rw [if_neg]
    all_goals
      first
        | rfl
        | exact line_ne_empty _ _ (by decide)
        | exact append_ne_empty_left _ (append_ne_empty_left _ (line_ne_empty _ _ (by decide)))
  refine ⟨rfl, hmain, ?_⟩
  rw [hmain (some 0) none none (by simp)]
  simp only [claimedQuery, List.cons_append, List.nil_append, joinAmp]
  rw [show intToString 0 = "0" from by simp [intToString, intChars, natChars]]
  rfl

/-- C10 witness: a defined offset of zero alone yields a query, and all
three parameters defined yield them in order. -/
theorem buildQuery_spec_witness :
    buildQuery (some 0) none none = "?" ++ claimedQuery (some 0) none none
    ∧ buildQuery (some 5) (some 25) (some "x y") =
        "?" ++ claimedQuery (some 5) (some 25) (some "x y") := by
  exact ⟨buildQuery_spec.2.1 (some 0) none none (by simp),
    buildQuery_spec.2.1 (some 5) (some 25) (some "x y") (by simp)⟩


/-- C4: the names registered in read-only mode are a strict subset of those
registered in read-write mode; every tool only present read-write carries
readOnlyHint false; and every name present in both carries the identical
READ_ONLY annotation in both. -/
theorem registerAllTools_read_only_strict_subset :
    (∀ n ∈ toolNames true, n ∈ toolNames false)
    ∧ (∃ n ∈ toolNames false, n ∉ toolNames true)
    ∧ (∀ t ∈ registerAllTools false, t.name ∉ toolNames true →
        t.annotations.readOnlyHint = false)
    ∧ (∀ t ∈ registerAllTools true, ∀ u ∈ registerAllTools false,
        t.name = u.name → t.annotations = u.annotations ∧ t.annotations = READ_ONLY) := by
  decide

/-- C5: every tool registered in read-only mode has readOnlyHint true and
destructiveHint false, and its input schema has no dryRun and no confirm
field. -/
theorem read_only_mode_tools_read_only :
    ∀ t ∈ registerAllTools true,
      t.annotations.readOnlyHint = true
      ∧ t.annotations.destructiveHint = false
      ∧ "dryRun" ∉ t.inputFields
      ∧ "confirm" ∉ t.inputFields := by
  decide


/-- C9: when the collaborator rejects every call with a message, the
handlers return (rather than throw) the uniform error envelope: the error
discriminator is set and the text contains the message. Shown for the
cited list handler and for a write and a destructive handler on their
execution paths. -/
theorem handlers_wrap_downstream_errors (client : ClientBehavior) (msg : String)
    (hclient : ∀ call, client call = .error msg)
    (a : ListNetworksArgs) (b : CreateNetworkArgs) (c : RemoveDeviceArgs) :
    (unifi_list_networks_handler client a).1 = formatError msg
    ∧ (b.dryRun ≠ some true → (unifi_create_network_handler client b).1 = formatError msg)
    ∧ (c.confirm = some true → c.dryRun ≠ some true →
        (unifi_remove_device_handler client c).1 = formatError msg)
    ∧ (formatError msg).isError = some true
    ∧ ∃ tc, (formatError msg).content = [tc]
        ∧ tc.text = "Error: " ++ msg
        ∧ strContainsSub tc.text msg := by
  refine ⟨?_, fun hb => ?_, fun hc1 hc2 => ?_, rfl, ⟨_, rfl, rfl, ?_⟩⟩
  · simp [unifi_list_networks_handler, tracedGet, wrapOutcome, hclient]
  · have hb' : truthy b.dryRun = false := by
      simp [truthy]
      exact hb
    simp [unifi_create_network_handler, tracedPost, wrapOutcome, hb', hclient]
  · have hc2' : truthy c.dryRun = false := by
      simp [truthy]
      exact hc2
    simp [unifi_remove_device_handler, requireConfirmation, hc1, hc2',
      tracedDelete, wrapOutcome, hclient]
  · exact ⟨"Error: ".data, [], by simp [textContent, String.data_append]⟩

/-- C9 witness: a collaborator that always rejects, on concrete inputs. -/
theorem handlers_wrap_downstream_errors_witness :
    (unifi_list_networks_handler (fun _ => Except.error "HTTP 404: not found")
        ⟨"s1", none, none, none⟩).1 = formatError "HTTP 404: not found"
    ∧ (unifi_remove_device_handler (fun _ => Except.error "HTTP 404: not found")
        ⟨"s1", "d1", some true, none⟩).1 = formatError "HTTP 404: not found" := by
  have h := handlers_wrap_downstream_errors (fun _ => Except.error "HTTP 404: not found")
    "HTTP 404: not found" (fun _ => rfl)
    ⟨"s1", none, none, none⟩
    ⟨"s1", "n", "GATEWAY", true, 1, none⟩
    ⟨"s1", "d1", some true, none⟩
  exact ⟨h.1, h.2.2.1 rfl (by simp)⟩


/-- C6 counterexample: for unifi_remove_device at a concrete input, the
dry-run preview places a body key holding the empty object in
wouldExecute, while the real execution issues a DELETE whose body is
absent, so the preview does not report the absence of a body that the real
call would have sent. -/
theorem dry_run_preview_body_counterexample :
    (unifi_remove_device_handler (fun _ => Except.ok Json.null)
        ⟨"site1", "dev1", some true, some true⟩).1
      = formatDryRun "DELETE" "/sites/site1/devices/dev1" (some (Json.obj []))
    ∧ ((dryRunPreview "DELETE" "/sites/site1/devices/dev1" (some (Json.obj []))).getKey
        "wouldExecute").bind (fun w => w.getKey "body") = some (Json.obj [])
    ∧ (unifi_remove_device_handler (fun _ => Except.ok Json.null)
        ⟨"site1", "dev1", some true, none⟩).2
      = [{ method := "DELETE", path := "/sites/site1/devices/dev1", body := none }]
    ∧ some (Json.obj []) ≠ (none : Option Json) := by
  refine ⟨rfl, rfl, rfl, by simp⟩

/-- C6 as amended: under dryRun true (confirm true where destructive) the
handler invokes no collaborator method — the whole result is the preview
paired with an empty call trace — and the preview reports the exact method
and path of the request the real invocation issues; for
unifi_create_network the body also agrees exactly, while
unifi_remove_device and unifi_delete_acl_rule preview a body of an empty
object although their real DELETE call sends no body. -/
theorem dry_run_preview_reports_method_path (client : ClientBehavior)
    (a : CreateNetworkArgs) (c : RemoveDeviceArgs) (d : DeleteAclRuleArgs)
    (hc : c.confirm = some true) (hd : d.confirm = some true) :
    (∃ call, (unifi_create_network_handler client { a with dryRun := none }).2 = [call]
      ∧ unifi_create_network_handler client { a with dryRun := some true }
          = (formatDryRun call.method call.path call.body, []))
    ∧ (∃ call, (unifi_remove_device_handler client { c with dryRun := none }).2 = [call]
      ∧ unifi_remove_device_handler client { c with dryRun := some true }
          = (formatDryRun call.method call.path (some (Json.obj [])), [])
      ∧ call.body = none)
    ∧ (∃ call, (unifi_delete_acl_rule_handler client { d with dryRun := none }).2 = [call]
      ∧ unifi_delete_acl_rule_handler client { d with dryRun := some true }
          = (formatDryRun call.method call.path (some (Json.obj [])), [])
      ∧ call.body = none) := by
  refine ⟨⟨{ method := "POST",
             path := "/sites/" ++ a.siteId ++ "/networks",
             body := some (.obj [("name", .str a.name), ("management", .str a.management),
                                 ("enabled", .bool a.enabled), ("vlanId", .num a.vlanId)]) },
     ?_, ?_⟩,
    ⟨{ method := "DELETE",
       path := "/sites/" ++ c.siteId ++ "/devices/" ++ c.deviceId,
       body := none }, ?_, ?_, rfl⟩,
    ⟨{ method := "DELETE",
       path := "/sites/" ++ d.siteId ++ "/acl-rules/" ++ d.aclRuleId,
       body := none }, ?_, ?_, rfl⟩⟩
  · simp [unifi_create_network_handler, truthy, tracedPost, wrapOutcome]
  · simp [unifi_create_network_handler, truthy, tracedPost, wrapOutcome]
  · simp [unifi_remove_device_handler, requireConfirmation, hc, truthy,
      tracedDelete, wrapOutcome]
  · simp [unifi_remove_device_handler, requireConfirmation, hc, truthy,
      tracedDelete, wrapOutcome]
  · simp [unifi_delete_acl_rule_handler, requireConfirmation, hd, truthy,
      tracedDelete, wrapOutcome]
  · simp [unifi_delete_acl_rule_handler, requireConfirmation, hd, truthy,
      tracedDelete, wrapOutcome]

/-- C6 amended witness at concrete inputs. -/
theorem dry_run_preview_reports_method_path_witness :
    ∃ call, (unifi_remove_device_handler (fun _ => Except.ok Json.null)
        ({ siteId := "s1", deviceId := "d1", confirm := some true, dryRun := none } :
          RemoveDeviceArgs)).2 = [call]
      ∧ unifi_remove_device_handler (fun _ => Except.ok Json.null)
          ({ siteId := "s1", deviceId := "d1", confirm := some true, dryRun := some true } :
            RemoveDeviceArgs)
          = (formatDryRun call.method call.path (some (Json.obj [])), [])
      ∧ call.body = none := by
  have h := dry_run_preview_reports_method_path (fun _ => Except.ok Json.null)
    ⟨"s1", "n", "GATEWAY", true, 1, none⟩
    ⟨"s1", "d1", some true, none⟩
    ⟨"s1", "r1", some true, none⟩ rfl rfl
  exact h.2.1


/-! ### Round-trip lemmas: whitespace and digits -/

/-- Dropping whitespace ignores an all-whitespace prefix. -/
theorem skipWs_leadWs (ws cs : List Char) (h : ∀ c ∈ ws, isWsChar c = true) :
    skipWs (ws ++ cs) = skipWs cs := by
  induction ws with
  | nil => rfl
  | cons c t ih =>
    have hc : isWsChar c = true := h c (by simp)
    rw [List.cons_append]
    simp only [skipWs, hc, if_pos]
    exact ih (fun x hx => h x (by simp [hx]))

/-- Indentation is whitespace. -/
theorem spaces_all_ws (n : Nat) : ∀ c ∈ spaces n, isWsChar c = true := by
  intro c hc
  simp only [spaces] at hc
  have := List.eq_of_mem_replicate hc
  subst this
  decide

/-- Dropping whitespace ignores indentation. -/
theorem skipWs_spaces (n : Nat) (cs : List Char) : skipWs (spaces n ++ cs) = skipWs cs :=
  skipWs_leadWs _ _ (spaces_all_ws n)

/-- Dropping whitespace keeps a non-whitespace-headed input unchanged. -/
theorem skipWs_cons_not {c : Char} (cs : List Char) (h : isWsChar c = false) :
    skipWs (c :: cs) = c :: cs := by
  simp [skipWs, h]

/-- Dropping whitespace is idempotent. -/
theorem skipWs_idem (cs : List Char) : skipWs (skipWs cs) = skipWs cs := by
  induction cs with
  | nil => rfl
  | cons c t ih =>
    by_cases h : isWsChar c <;> simp [skipWs, h, ih]

/-- The rendered digit of k below ten carries value k and is a digit. -/
theorem digit_char_spec (k : Nat) (h : k < 10) :
    (Char.ofNat ('0'.toNat + k)).toNat - '0'.toNat = k
    ∧ isDigitChar (Char.ofNat ('0'.toNat + k)) = true := by
  interval_cases k <;> exact ⟨by decide, by decide⟩

/-- A rendered natural number is never empty. -/
theorem natChars_ne_nil (n : Nat) : natChars n ≠ [] := by
  rw [natChars]
  split <;> simp

/-- Every character of a rendered natural number is a digit. -/
theorem natChars_digits (n : Nat) : ∀ c ∈ natChars n, isDigitChar c = true := by
  induction n using Nat.strongRecOn with
  | _ n ih =>
    rw [natChars]
    split
    · rename_i h
      intro c hc
      simp at hc
      subst hc
      exact (digit_char_spec n (by omega)).2
    · rename_i h
      intro c hc
      rw [List.mem_append] at hc
      rcases hc with h1 | h2
      · exact ih (n / 10) (Nat.div_lt_self (by omega) (by omega)) c h1
      · simp at h2
        subst h2
        exact (digit_char_spec (n % 10) (Nat.mod_lt _ (by omega))).2

/-- A rendered natural number starts with a digit. -/
theorem natChars_cons (n : Nat) : ∃ c t, natChars n = c :: t ∧ isDigitChar c = true := by
  match h : natChars n with
  | [] => exact absurd h (natChars_ne_nil n)
  | c :: t =>
    exact ⟨c, t, rfl, natChars_digits n c (by rw [h]; exact List.mem_cons_self c t)⟩

/-- Reading the rendered digits of n back gives n. -/
theorem digitsToNat_natChars (n : Nat) : digitsToNat (natChars n) = n := by
  induction n using Nat.strongRecOn with
  | _ n ih =>
    rw [natChars]
    split
    · rename_i h
      simp only [digitsToNat, List.foldl_cons, List.foldl_nil, Nat.zero_mul, Nat.zero_add]
      exact (digit_char_spec n (by omega)).1
    · rename_i h
      have hsplit : digitsToNat (natChars (n / 10) ++ [Char.ofNat ('0'.toNat + n % 10)])
          = digitsToNat (natChars (n / 10)) * 10
            + ((Char.ofNat ('0'.toNat + n % 10)).toNat - '0'.toNat) := by
        simp [digitsToNat, List.foldl_append]
      rw [hsplit, ih (n / 10) (Nat.div_lt_self (by omega) (by omega)),
        (digit_char_spec (n % 10) (Nat.mod_lt _ (by omega))).1]
      omega

/-- takeDigits consumes nothing at a number delimiter. -/
theorem takeDigits_at_delim {l : List Char} (hl : numDelim l = true) :
    takeDigits l = ([], l) := by
  cases l with
  | nil => rfl
  | cons d tl =>
    simp only [numDelim, Bool.not_eq_true'] at hl
    simp [takeDigits, hl]

/-- takeDigits consumes exactly a digit run that ends at a stop. -/
theorem takeDigits_all_digits (xs : List Char) (hxs : ∀ d ∈ xs, isDigitChar d = true)
    (tl : List Char) (htl : takeDigits tl = ([], tl)) :
    takeDigits (xs ++ tl) = (xs, tl) := by
  induction xs with
  | nil => simpa using htl
  | cons y ys ih =>
    have hy := hxs y (by simp)
    have hys := ih (fun z hz => hxs z (by simp [hz]))
    simp [takeDigits, hy, hys]

/-- Digits are not the minus sign. -/
theorem digit_ne_minus {c : Char} (h : isDigitChar c = true) : c ≠ '-' := by
  intro h'
  subst h'
  exact absurd h (by decide)

/-- Number codec round-trip: parseIntL inverts intChars whenever the
remainder cannot extend the number. -/
theorem parseIntL_intChars (i : Int) (rest : List Char) (hr : numDelim rest = true) :
    parseIntL (intChars i ++ rest) = some (i, rest) := by
  by_cases hi : i < 0
  · have harg : intChars i ++ rest = '-' :: (natChars i.natAbs ++ rest) := by
      simp [intChars, hi]
    have htd := takeDigits_all_digits (natChars i.natAbs) (natChars_digits _) rest (takeDigits_at_delim hr)
    rw [harg]
    simp only [parseIntL, htd]
    rw [if_neg (by simp [natChars_ne_nil])]
    rw [digitsToNat_natChars]
    simp only [Option.some.injEq, Prod.mk.injEq, and_true]
    omega
  · obtain ⟨c0, t0, h0, hc0⟩ := natChars_cons i.natAbs
    have hne := digit_ne_minus hc0
    have harg : intChars i ++ rest = c0 :: (t0 ++ rest) := by
      simp [intChars, hi, h0]
    have htd : takeDigits (c0 :: (t0 ++ rest)) = (c0 :: t0, rest) := by
      have := takeDigits_all_digits (natChars i.natAbs) (natChars_digits _) rest (takeDigits_at_delim hr)
      rwa [h0, List.cons_append] at this
    have hdn : digitsToNat (c0 :: t0) = i.natAbs := by
      rw [← h0]
      exact digitsToNat_natChars _
    rw [harg, parseIntL.eq_def]
    split
    · rename_i r heq
      rw [List.cons.injEq] at heq
      exact absurd heq.1 hne
    · simp only [htd, hdn]
      rw [if_neg (by simp)]
      simp only [Option.some.injEq, Prod.mk.injEq, and_true]
      omega


/-! ### Round-trip lemmas: strings -/

/-- A rendered hex digit parses back to its value. -/
theorem hexVal_hexDigitChar (k : Nat) (h : k < 16) : hexVal (hexDigitChar k) = some k := by
  interval_cases k <;> decide

/-- Parsing one escaped character undoes the escaping. -/
theorem parseStrL_escape (c : Char) (rest : List Char) :
    parseStrL (escapeChar c ++ rest)
      = (parseStrL rest).map fun sr => (c :: sr.1, sr.2) := by
  rw [escapeChar.eq_def]
  split
  · cases h : parseStrL rest <;> simp [parseStrL, unescapeChar, h]
  · cases h : parseStrL rest <;> simp [parseStrL, unescapeChar, h]
  · cases h : parseStrL rest <;> simp [parseStrL, unescapeChar, h]
  · cases h : parseStrL rest <;> simp [parseStrL, unescapeChar, h]
  · cases h : parseStrL rest <;> simp [parseStrL, unescapeChar, h]
  · rename_i h1 h2 h3 h4 h5
    by_cases hb : c = Char.ofNat 8
    · subst hb
      rw [if_pos rfl]
      cases h : parseStrL rest <;> simp [parseStrL, unescapeChar, h]
    · rw [if_neg hb]
      by_cases hf : c = Char.ofNat 12
      · subst hf
        rw [if_pos rfl]
        cases h : parseStrL rest <;> simp [parseStrL, unescapeChar, h]
      · rw [if_neg hf]
        by_cases hlt : c.toNat < 32
        · rw [if_pos hlt]
          have harith : c.toNat / 16 * 16 + c.toNat % 16 = c.toNat := by omega
          cases h : parseStrL rest <;>
            simp [parseStrL, hex4, hexVal_hexDigitChar _ (show c.toNat / 16 < 16 by omega),
              hexVal_hexDigitChar _ (show c.toNat % 16 < 16 by omega),
              show hexVal (Char.ofNat 48) = some 0 from by decide, harith,
              Char.ofNat_toNat, h]
        · rw [if_neg hlt]
          rw [show ([c] ++ rest) = c :: rest from rfl, parseStrL.eq_def]
          split
          · rename_i heq
            cases heq
          · rename_i heq
            rw [List.cons.injEq] at heq
            exact absurd (h1 heq.1) id
          · rename_i heq
            rw [List.cons.injEq] at heq
            exact absurd (h2 heq.1) id
          · rename_i c'' rest'' heq
            rw [List.cons.injEq] at heq
            obtain ⟨rfl, rfl⟩ := heq
            rfl

/-- Parsing a rendered escaped run stops exactly at the closing quote. -/
theorem parseStrL_escapeList (cs : List Char) (rest : List Char) :
    parseStrL (escapeList cs ++ '"' :: rest) = some (cs, rest) := by
  induction cs with
  | nil => rfl
  | cons c t ih =>
    rw [escapeList, List.append_assoc, parseStrL_escape, ih]
    rfl


/-! ### Round-trip lemmas: heads and parser branches -/

/-- Digits are not whitespace. -/
theorem digit_not_ws {c : Char} (h : isDigitChar c = true) : isWsChar c = false := by
  rcases hws : isWsChar c with _ | _
  · rfl
  · exfalso
    simp only [isWsChar, Bool.or_eq_true, decide_eq_true_eq] at hws
    rcases hws with ((rfl | rfl) | rfl) | rfl <;> exact absurd h (by decide)

/-- Digits are none of the structural characters of the grammar. -/
theorem digit_ne {d : Char} (h : isDigitChar d = true) :
    d ≠ ']' ∧ d ≠ '}' ∧ d ≠ ',' ∧ d ≠ 'n' ∧ d ≠ 't' ∧ d ≠ 'f'
    ∧ d ≠ '"' ∧ d ≠ '[' ∧ d ≠ '{' := by
  have hgen : ∀ e : Char, isDigitChar e = false → d ≠ e := by
    intro e he hde
    rw [hde, he] at h
    cases h
  exact ⟨hgen _ (by decide), hgen _ (by decide), hgen _ (by decide), hgen _ (by decide),
    hgen _ (by decide), hgen _ (by decide), hgen _ (by decide), hgen _ (by decide),
    hgen _ (by decide)⟩

/-- Every rendered value begins with a character that is no whitespace and
closes neither an array nor an object. -/
theorem renderV_head (ind : Nat) (v : Json) :
    ∃ c t, renderV ind v = c :: t ∧ isWsChar c = false ∧ c ≠ ']' ∧ c ≠ '}' := by
  cases v with
  | null => exact ⟨'n', ['u', 'l', 'l'], by simp [renderV], by decide, by decide, by decide⟩
  | bool b =>
    cases b with
    | true => exact ⟨'t', ['r', 'u', 'e'], by simp [renderV], by decide, by decide, by decide⟩
    | false =>
      exact ⟨'f', ['a', 'l', 's', 'e'], by simp [renderV], by decide, by decide, by decide⟩
  | str s =>
    exact ⟨'"', escapeList s.data ++ ['"'], by simp [renderV, renderStr], by decide,
      by decide, by decide⟩
  | arr es =>
    cases es with
    | nil => exact ⟨'[', [']'], by simp [renderV], by decide, by decide, by decide⟩
    | cons e es =>
      exact ⟨'[', '\n' :: (renderItems (ind + 2) e es ++ '\n' :: (spaces ind ++ [']'])),
        by simp [renderV], by decide, by decide, by decide⟩
  | obj ms =>
    cases ms with
    | nil => exact ⟨'{', ['}'], by simp [renderV], by decide, by decide, by decide⟩
    | cons m ms =>
      exact ⟨'{', '\n' :: (renderMems (ind + 2) m ms ++ '\n' :: (spaces ind ++ ['}'])),
        by simp [renderV], by decide, by decide, by decide⟩
  | num i =>
    by_cases hi : i < 0
    · exact ⟨'-', natChars i.natAbs, by simp [renderV, intChars, hi], by decide,
        by decide, by decide⟩
    · obtain ⟨c0, t0, h0, hc0⟩ := natChars_cons i.natAbs
      obtain ⟨hbr, hbc, -⟩ := digit_ne hc0
      exact ⟨c0, t0, by simp [renderV, intChars, hi, h0], digit_not_ws hc0, hbr, hbc⟩

/-- Dropping whitespace leaves rendered output alone. -/
theorem skipWs_renderV (ind : Nat) (v : Json) (x : List Char) :
    skipWs (renderV ind v ++ x) = renderV ind v ++ x := by
  obtain ⟨c, t, hr, hws, -, -⟩ := renderV_head ind v
  rw [hr, List.cons_append, skipWs_cons_not _ hws]

/-- A rendered value is at least one character long. -/
theorem renderV_length_pos (ind : Nat) (v : Json) : 1 ≤ (renderV ind v).length := by
  obtain ⟨c, t, hr, -, -, -⟩ := renderV_head ind v
  rw [hr]
  simp

/-- parseVal ignores a whitespace prefix. -/
theorem parseVal_leadWs (f : Nat) (ws cs : List Char)
    (h : ∀ c ∈ ws, isWsChar c = true) :
    parseVal f (ws ++ cs) = parseVal f cs := by
  cases f with
  | zero => rfl
  | succ f =>
    simp only [parseVal]
    rw [skipWs_leadWs _ _ h]

/-- parseVal is insensitive to pre-skipped whitespace. -/
theorem parseVal_skipWs (f : Nat) (cs : List Char) :
    parseVal f (skipWs cs) = parseVal f cs := by
  cases f with
  | zero => rfl
  | succ f =>
    simp only [parseVal]
    rw [skipWs_idem]

/-- parseElems ignores a whitespace prefix. -/
theorem parseElems_leadWs (f : Nat) (ws cs : List Char)
    (h : ∀ c ∈ ws, isWsChar c = true) :
    parseElems f (ws ++ cs) = parseElems f cs := by
  cases f with
  | zero => rfl
  | succ f =>
    simp only [parseElems]
    rw [parseVal_leadWs f ws cs h]

/-- parseElems is insensitive to pre-skipped whitespace. -/
theorem parseElems_skipWs (f : Nat) (cs : List Char) :
    parseElems f (skipWs cs) = parseElems f cs := by
  cases f with
  | zero => rfl
  | succ f =>
    simp only [parseElems]
    rw [parseVal_skipWs]

/-- parseMembers is insensitive to pre-skipped whitespace. -/
theorem parseMembers_skipWs (f : Nat) (cs : List Char) :
    parseMembers f (skipWs cs) = parseMembers f cs := by
  cases f with
  | zero => rfl
  | succ f =>
    simp only [parseMembers]
    rw [skipWs_idem]

/-- parseMembers ignores a whitespace prefix. -/
theorem parseMembers_leadWs (f : Nat) (ws cs : List Char)
    (h : ∀ c ∈ ws, isWsChar c = true) :
    parseMembers f (ws ++ cs) = parseMembers f cs := by
  cases f with
  | zero => rfl
  | succ f =>
    simp only [parseMembers]
    rw [skipWs_leadWs _ _ h]

/-- A value whose input starts with a sign or digit parses as a number. -/
theorem parseVal_num_branch (f : Nat) (a0 : Char) (t : List Char)
    (aws : isWsChar a0 = false) (an : a0 ≠ 'n') (at1 : a0 ≠ 't') (af : a0 ≠ 'f')
    (aq : a0 ≠ '"') (ak : a0 ≠ '[') (ab : a0 ≠ '{')
    (ag : a0 = '-' ∨ isDigitChar a0 = true) :
    parseVal (f + 1) (a0 :: t)
      = (parseIntL (a0 :: t)).map fun ir => (.num ir.1, ir.2) := by
  have acond : (decide (a0 = '-') || isDigitChar a0) = true := by
    rcases ag with rfl | ag1
    · simp
    · simp [ag1]
  simp only [parseVal]
  rw [skipWs_cons_not _ aws]
  simp [an, at1, af, aq, ak, ab, acond]

/-- The number case of the value round-trip. -/
theorem parseVal_num (i : Int) (f : Nat) (rest : List Char) (hr : numDelim rest = true) :
    parseVal (f + 1) (intChars i ++ rest) = some (.num i, rest) := by
  by_cases hi : i < 0
  · have harg : intChars i ++ rest = '-' :: (natChars i.natAbs ++ rest) := by
      simp [intChars, hi]
    rw [harg, parseVal_num_branch f '-' _ (by decide) (by decide) (by decide) (by decide)
      (by decide) (by decide) (by decide) (Or.inl rfl), ← harg, parseIntL_intChars i rest hr]
    rfl
  · obtain ⟨c0, t0, h0, hc0⟩ := natChars_cons i.natAbs
    obtain ⟨-, -, -, hn, ht, hf', hq, hbk, hbc⟩ := digit_ne hc0
    have harg : intChars i ++ rest = c0 :: (t0 ++ rest) := by
      simp [intChars, hi, h0]
    rw [harg, parseVal_num_branch f c0 _ (digit_not_ws hc0) hn ht hf' hq hbk hbc
      (Or.inr hc0), ← harg, parseIntL_intChars i rest hr]
    rfl

/-- The string case of the value round-trip. -/
theorem parseVal_str (s : String) (f : Nat) (rest : List Char) :
    parseVal (f + 1) (renderStr s ++ rest) = some (.str s, rest) := by
  have harg : renderStr s ++ rest = '"' :: (escapeList s.data ++ ('"' :: rest)) := by
    simp [renderStr]
  rw [harg]
  simp only [parseVal]
  rw [skipWs_cons_not _ (by decide)]
  simp [parseStrL_escapeList]


/-- Whitespace characters are not digits. -/
theorem ws_not_digit {c : Char} (h : isWsChar c = true) : isDigitChar c = false := by
  simp only [isWsChar, Bool.or_eq_true, decide_eq_true_eq] at h
  rcases h with ((rfl | rfl) | rfl) | rfl <;> decide

/-- A whitespace prefix preserves a number delimiter. -/
theorem numDelim_ws (ws cs : List Char) (hws : ∀ c ∈ ws, isWsChar c = true)
    (hcs : numDelim cs = true) : numDelim (ws ++ cs) = true := by
  cases ws with
  | nil => simpa using hcs
  | cons c t =>
    have hc := hws c (by simp)
    simp [numDelim, ws_not_digit hc]

/-- The parser's array branch on a rendered non-empty array reduces to
parsing its elements. -/
theorem parseVal_arr_branch (f ind : Nat) (e : Json) (es : List Json) (z : List Char) :
    parseVal (f + 1) ('[' :: '\n' :: (renderItems ind e es ++ z))
      = (parseElems f (renderItems ind e es ++ z)).map fun er => (.arr er.1, er.2) := by
  obtain ⟨c1, t1, hr, hws1, hbr1, -⟩ := renderV_head ind e
  have hshape : ∃ w, renderItems ind e es ++ z = spaces ind ++ (renderV ind e ++ w) := by
    cases es with
    | nil => exact ⟨z, by simp [renderItems, List.append_assoc]⟩
    | cons x xs =>
      exact ⟨',' :: '\n' :: (renderItems ind x xs ++ z),
        by simp [renderItems, List.append_assoc]⟩
  obtain ⟨w, hw⟩ := hshape
  have hskip : skipWs ('\n' :: (renderItems ind e es ++ z)) = c1 :: (t1 ++ w) := by
    rw [show ('\n' :: (renderItems ind e es ++ z) : List Char)
        = ['\n'] ++ (renderItems ind e es ++ z) from rfl]
    rw [skipWs_leadWs _ _ (by intro c hc; simp at hc; subst hc; decide)]
    rw [hw, skipWs_spaces, hr, List.cons_append, skipWs_cons_not _ hws1]
  have hback : parseElems f (c1 :: (t1 ++ w)) = parseElems f (renderItems ind e es ++ z) := by
    rw [← List.cons_append, ← hr, hw, parseElems_leadWs f _ _ (spaces_all_ws ind)]
  have step : parseVal (f + 1) ('[' :: '\n' :: (renderItems ind e es ++ z))
      = (match skipWs ('\n' :: (renderItems ind e es ++ z)) with
         | ']' :: r1 => some (Json.arr [], r1)
         | r1 => (parseElems f r1).map fun er => (Json.arr er.1, er.2)) := rfl
  rw [step, hskip]
  split
  · rename_i heq
    rw [List.cons.injEq] at heq
    exact absurd heq.1 hbr1
  · rw [hback]

/-- The parser's object branch on a rendered non-empty object reduces to
parsing its members. -/
theorem parseVal_obj_branch (f ind : Nat) (m : String × Json) (ms : List (String × Json))
    (z : List Char) :
    parseVal (f + 1) ('{' :: '\n' :: (renderMems ind m ms ++ z))
      = (parseMembers f (renderMems ind m ms ++ z)).map fun mr => (.obj mr.1, mr.2) := by
  have hshape : ∃ w, renderMems ind m ms ++ z
      = spaces ind ++ ('"' :: (escapeList m.1.data ++ ('"' :: w))) := by
    cases ms with
    | nil =>
      exact ⟨':' :: ' ' :: (renderV ind m.2 ++ z),
        by simp [renderMems, renderStr, List.append_assoc]⟩
    | cons x xs =>
      exact ⟨':' :: ' ' :: (renderV ind m.2 ++ (',' :: '\n' :: (renderMems ind x xs ++ z))),
        by simp [renderMems, renderStr, List.append_assoc]⟩
  obtain ⟨w, hw⟩ := hshape
  have hskip : skipWs ('\n' :: (renderMems ind m ms ++ z))
      = '"' :: (escapeList m.1.data ++ ('"' :: w)) := by
    rw [show ('\n' :: (renderMems ind m ms ++ z) : List Char)
        = ['\n'] ++ (renderMems ind m ms ++ z) from rfl]
    rw [skipWs_leadWs _ _ (by intro c hc; simp at hc; subst hc; decide)]
    rw [hw, skipWs_spaces, skipWs_cons_not _ (by decide)]
  have hback : parseMembers f ('"' :: (escapeList m.1.data ++ ('"' :: w)))
      = parseMembers f (renderMems ind m ms ++ z) := by
    rw [hw, parseMembers_leadWs f _ _ (spaces_all_ws ind)]
  have step : parseVal (f + 1) ('{' :: '\n' :: (renderMems ind m ms ++ z))
      = (match skipWs ('\n' :: (renderMems ind m ms ++ z)) with
         | '}' :: r1 => some (Json.obj [], r1)
         | r1 => (parseMembers f r1).map fun mr => (Json.obj mr.1, mr.2)) := rfl
  rw [step, hskip]
  split
  · rename_i heq
    rw [List.cons.injEq] at heq
    exact absurd heq.1 (by decide)
  · rw [hback]


/-- The parser's member branch on a rendered key and colon reduces to
parsing the value and the rest of the member list. -/
theorem parseMembers_entry (f : Nat) (kd body : List Char) :
    parseMembers (f + 1) ('"' :: (escapeList kd ++ ('"' :: (':' :: (' ' :: body)))))
      = (match parseVal f (' ' :: body) with
         | none => none
         | some (v, r3) =>
           match skipWs r3 with
           | ',' :: r4 => (parseMembers f r4).map fun mr => ((⟨kd⟩, v) :: mr.1, mr.2)
           | '}' :: r4 => some ([(⟨kd⟩, v)], r4)
           | _ => none) := by
  have step : parseMembers (f + 1) ('"' :: (escapeList kd ++ ('"' :: (':' :: (' ' :: body)))))
      = (match parseStrL (escapeList kd ++ ('"' :: (':' :: (' ' :: body)))) with
         | none => none
         | some (k, r1) =>
           match skipWs r1 with
           | ':' :: r2 =>
             match parseVal f r2 with
             | none => none
             | some (v, r3) =>
               match skipWs r3 with
               | ',' :: r4 => (parseMembers f r4).map fun mr => ((⟨k⟩, v) :: mr.1, mr.2)
               | '}' :: r4 => some ([(⟨k⟩, v)], r4)
               | _ => none
           | _ => none) := rfl
  rw [step, parseStrL_escapeList]
  rfl

mutual
/-- Parsing a rendered value consumes exactly the rendering, for any fuel
above its length, whenever what follows cannot extend a number. -/
theorem rt_val : ∀ (v : Json) (ind fuel : Nat) (rest : List Char),
    (renderV ind v).length < fuel → numDelim rest = true →
    parseVal fuel (renderV ind v ++ rest) = some (v, rest)
  | .null, ind, fuel, rest, hf, _ => by
    rw [show renderV ind Json.null = ['n', 'u', 'l', 'l'] from by simp [renderV]] at hf ⊢
    cases fuel with
    | zero => simp at hf
    | succ f => rfl
  | .bool true, ind, fuel, rest, hf, _ => by
    rw [show renderV ind (Json.bool true) = ['t', 'r', 'u', 'e'] from by simp [renderV]] at hf ⊢
    cases fuel with
    | zero => simp at hf
    | succ f => rfl
  | .bool false, ind, fuel, rest, hf, _ => by
    rw [show renderV ind (Json.bool false) = ['f', 'a', 'l', 's', 'e'] from by
      simp [renderV]] at hf ⊢
    cases fuel with
    | zero => simp at hf
    | succ f => rfl
  | .num i, ind, fuel, rest, hf, hr => by
    rw [show renderV ind (Json.num i) = intChars i from by simp [renderV]] at hf ⊢
    cases fuel with
    | zero => exact absurd hf (Nat.not_lt_zero _)
    | succ f => exact parseVal_num i f rest hr
  | .str s, ind, fuel, rest, hf, _ => by
    rw [show renderV ind (Json.str s) = renderStr s from by simp [renderV]] at hf ⊢
    cases fuel with
    | zero => exact absurd hf (Nat.not_lt_zero _)
    | succ f => exact parseVal_str s f rest
  | .arr [], ind, fuel, rest, hf, _ => by
    rw [show renderV ind (Json.arr []) = ['[', ']'] from by simp [renderV]] at hf ⊢
    cases fuel with
    | zero => simp at hf
    | succ f => rfl
  | .arr (e :: es), ind, fuel, rest, hf, _ => by
    cases fuel with
    | zero => exact absurd hf (Nat.not_lt_zero _)
    | succ f =>
      have hexp : renderV ind (Json.arr (e :: es)) ++ rest
          = '[' :: '\n' :: (renderItems (ind + 2) e es
              ++ (('\n' :: spaces ind) ++ (']' :: rest))) := by
        simp [renderV, List.append_assoc]
      have hlen : (renderV ind (Json.arr (e :: es))).length
          = (renderItems (ind + 2) e es).length + (ind + 4) := by
        simp only [renderV, spaces, List.length_cons, List.length_append,
          List.length_replicate, List.length_nil]
        omega
      have hfx : (renderItems (ind + 2) e es).length + 1 < f := by omega
      rw [hexp, parseVal_arr_branch f (ind + 2) e es _]
      rw [rt_items e es (ind + 2) f ('\n' :: spaces ind) rest
        (by intro c hc; rcases List.mem_cons.mp hc with rfl | hc2
            · decide
            · exact spaces_all_ws ind c hc2) hfx]
      rfl
  | .obj [], ind, fuel, rest, hf, _ => by
    rw [show renderV ind (Json.obj []) = ['{', '}'] from by simp [renderV]] at hf ⊢
    cases fuel with
    | zero => simp at hf
    | succ f => rfl
  | .obj (m :: ms), ind, fuel, rest, hf, _ => by
    cases fuel with
    | zero => exact absurd hf (Nat.not_lt_zero _)
    | succ f =>
      have hexp : renderV ind (Json.obj (m :: ms)) ++ rest
          = '{' :: '\n' :: (renderMems (ind + 2) m ms
              ++ (('\n' :: spaces ind) ++ ('}' :: rest))) := by
        simp [renderV, List.append_assoc]
      have hlen : (renderV ind (Json.obj (m :: ms))).length
          = (renderMems (ind + 2) m ms).length + (ind + 4) := by
        simp only [renderV, spaces, List.length_cons, List.length_append,
          List.length_replicate, List.length_nil]
        omega
      have hfx : (renderMems (ind + 2) m ms).length + 1 < f := by omega
      rw [hexp, parseVal_obj_branch f (ind + 2) m ms _]
      rw [rt_mems m ms (ind + 2) f ('\n' :: spaces ind) rest
        (by intro c hc; rcases List.mem_cons.mp hc with rfl | hc2
            · decide
            · exact spaces_all_ws ind c hc2) hfx]
      rfl
termination_by v _ _ _ _ _ => sizeOf v
decreasing_by
all_goals simp_wf
all_goals try obtain ⟨a, b⟩ := m
all_goals try obtain ⟨a, b⟩ := x
all_goals try simp only [Prod.mk.sizeOf_spec]
all_goals omega

/-- Parsing rendered array items consumes them exactly, up to the closing
bracket after any whitespace. -/
theorem rt_items : ∀ (e : Json) (es : List Json) (ind fuel : Nat) (ws rest : List Char),
    (∀ c ∈ ws, isWsChar c = true) →
    (renderItems ind e es).length + 1 < fuel →
    parseElems fuel (renderItems ind e es ++ (ws ++ (']' :: rest))) = some (e :: es, rest)
  | e, [], ind, fuel, ws, rest, hws, hf => by
    cases fuel with
    | zero => exact absurd hf (Nat.not_lt_zero _)
    | succ f =>
      have hexp : renderItems ind e [] ++ (ws ++ (']' :: rest))
          = spaces ind ++ (renderV ind e ++ (ws ++ (']' :: rest))) := by
        simp [renderItems, List.append_assoc]
      have hlen : (renderItems ind e []).length = ind + (renderV ind e).length := by
        simp only [renderItems, spaces, List.length_append, List.length_replicate]
      have hfe : (renderV ind e).length < f := by omega
      have hval := rt_val e ind f (ws ++ (']' :: rest)) hfe
        (numDelim_ws ws _ hws (by simp [numDelim, isDigitChar]))
      simp only [parseElems]
      rw [hexp, parseVal_leadWs f _ _ (spaces_all_ws ind)]
      simp only [hval]
      rw [skipWs_leadWs _ _ hws, skipWs_cons_not _ (by decide)]
      rfl
  | e, x :: xs, ind, fuel, ws, rest, hws, hf => by
    cases fuel with
    | zero => exact absurd hf (Nat.not_lt_zero _)
    | succ f =>
      have hexp : renderItems ind e (x :: xs) ++ (ws ++ (']' :: rest))
          = spaces ind ++ (renderV ind e
              ++ (',' :: '\n' :: (renderItems ind x xs ++ (ws ++ (']' :: rest))))) := by
        simp [renderItems, List.append_assoc]
      have hlen : (renderItems ind e (x :: xs)).length
          = ind + (renderV ind e).length + 2 + (renderItems ind x xs).length := by
        simp only [renderItems, spaces, List.length_append, List.length_replicate,
          List.length_cons]
        omega
      have hfe : (renderV ind e).length < f := by omega
      have hfx : (renderItems ind x xs).length + 1 < f := by omega
      have hval := rt_val e ind f
        (',' :: '\n' :: (renderItems ind x xs ++ (ws ++ (']' :: rest)))) hfe (by rfl)
      have htail := rt_items x xs ind f ws rest hws hfx
      simp only [parseElems]
      rw [hexp, parseVal_leadWs f _ _ (spaces_all_ws ind)]
      simp only [hval]
      rw [skipWs_cons_not _ (by decide)]
      simp only [show parseElems f ('\n' :: (renderItems ind x xs ++ (ws ++ (']' :: rest))))
          = parseElems f (renderItems ind x xs ++ (ws ++ (']' :: rest))) from by
        have h2 := parseElems_leadWs f ['\n']
          (renderItems ind x xs ++ (ws ++ (']' :: rest))) (by intro c hc; simp at hc; subst hc; decide)
        simpa using h2, htail]
      rfl
termination_by e es _ _ _ _ _ _ => sizeOf e + sizeOf es
decreasing_by
all_goals simp_wf
all_goals try obtain ⟨a, b⟩ := m
all_goals try obtain ⟨a, b⟩ := x
all_goals try simp only [Prod.mk.sizeOf_spec]
all_goals omega

/-- Parsing rendered object members consumes them exactly, up to the
closing brace after any whitespace. -/
theorem rt_mems : ∀ (m : String × Json) (ms : List (String × Json))
    (ind fuel : Nat) (ws rest : List Char),
    (∀ c ∈ ws, isWsChar c = true) →
    (renderMems ind m ms).length + 1 < fuel →
    parseMembers fuel (renderMems ind m ms ++ (ws ++ ('}' :: rest))) = some (m :: ms, rest)
  | m, [], ind, fuel, ws, rest, hws, hf => by
    cases fuel with
    | zero => exact absurd hf (Nat.not_lt_zero _)
    | succ f =>
      have hexp : renderMems ind m [] ++ (ws ++ ('}' :: rest))
          = spaces ind ++ ('"' :: (escapeList m.1.data
              ++ ('"' :: (':' :: (' ' :: (renderV ind m.2 ++ (ws ++ ('}' :: rest)))))))) := by
        simp [renderMems, renderStr, List.append_assoc]
      have hlen : (renderMems ind m []).length
          = ind + (renderStr m.1).length + 2 + (renderV ind m.2).length := by
        simp only [renderMems, spaces, List.length_append, List.length_replicate,
          List.length_cons]
        omega
      have hfv : (renderV ind m.2).length < f := by omega
      have hval := rt_val m.2 ind f (ws ++ ('}' :: rest)) hfv
        (numDelim_ws ws _ hws (by simp [numDelim, isDigitChar]))
      rw [hexp, parseMembers_leadWs (f + 1) _ _ (spaces_all_ws ind),
        parseMembers_entry f m.1.data _]
      simp only [show parseVal f (' ' :: (renderV ind m.2 ++ (ws ++ ('}' :: rest))))
          = parseVal f (renderV ind m.2 ++ (ws ++ ('}' :: rest))) from by
        have h2 := parseVal_leadWs f [' ']
          (renderV ind m.2 ++ (ws ++ ('}' :: rest))) (by intro c hc; simp at hc; subst hc; decide)
        simpa using h2, hval]
      rw [skipWs_leadWs _ _ hws, skipWs_cons_not _ (by decide)]
      rfl
  | m, x :: xs, ind, fuel, ws, rest, hws, hf => by
    cases fuel with
    | zero => exact absurd hf (Nat.not_lt_zero _)
    | succ f =>
      have hexp : renderMems ind m (x :: xs) ++ (ws ++ ('}' :: rest))
          = spaces ind ++ ('"' :: (escapeList m.1.data
              ++ ('"' :: (':' :: (' ' :: (renderV ind m.2
                ++ (',' :: '\n' :: (renderMems ind x xs ++ (ws ++ ('}' :: rest)))))))))) := by
        simp [renderMems, renderStr, List.append_assoc]
      have hlen : (renderMems ind m (x :: xs)).length
          = ind + (renderStr m.1).length + 2 + (renderV ind m.2).length
            + 2 + (renderMems ind x xs).length := by
        simp only [renderMems, spaces, List.length_append, List.length_replicate,
          List.length_cons]
        omega
      have hfv : (renderV ind m.2).length < f := by omega
      have hfx : (renderMems ind x xs).length + 1 < f := by omega
      have hval := rt_val m.2 ind f
        (',' :: '\n' :: (renderMems ind x xs ++ (ws ++ ('}' :: rest)))) hfv (by rfl)
      have htail := rt_mems x xs ind f ws rest hws hfx
      rw [hexp, parseMembers_leadWs (f + 1) _ _ (spaces_all_ws ind),
        parseMembers_entry f m.1.data _]
      simp only [show parseVal f (' ' :: (renderV ind m.2
              ++ (',' :: '\n' :: (renderMems ind x xs ++ (ws ++ ('}' :: rest))))))
          = parseVal f (renderV ind m.2
              ++ (',' :: '\n' :: (renderMems ind x xs ++ (ws ++ ('}' :: rest))))) from by
        have h2 := parseVal_leadWs f [' ']
          (renderV ind m.2 ++ (',' :: '\n' :: (renderMems ind x xs ++ (ws ++ ('}' :: rest)))))
          (by intro c hc; simp at hc; subst hc; decide)
        simpa using h2, hval]
      rw [skipWs_cons_not _ (by decide)]
      simp only [show parseMembers f ('\n' :: (renderMems ind x xs ++ (ws ++ ('}' :: rest))))
          = parseMembers f (renderMems ind x xs ++ (ws ++ ('}' :: rest))) from by
        have h2 := parseMembers_leadWs f ['\n']
          (renderMems ind x xs ++ (ws ++ ('}' :: rest)))
          (by intro c hc; simp at hc; subst hc; decide)
        simpa using h2, htail]
      rfl
termination_by m ms _ _ _ _ _ _ => sizeOf m.2 + sizeOf ms
decreasing_by
all_goals simp_wf
all_goals try obtain ⟨a, b⟩ := m
all_goals try obtain ⟨a, b⟩ := x
all_goals try simp only [Prod.mk.sizeOf_spec]
all_goals omega
end


/-- The codec round-trip: parsing a pretty-printed value recovers it. -/
theorem parse_jsonStringify (v : Json) : Json.parse (jsonStringify v) = some v := by
  unfold Json.parse jsonStringify
  have hd : (⟨renderV 0 v⟩ : String).data = renderV 0 v := rfl
  rw [hd]
  have h := rt_val v 0 ((renderV 0 v).length + 1) [] (by omega) (by rfl)
  rw [List.append_nil] at h
  rw [h]
  rfl

/-- C7: the dry-run formatter's text parses back to exactly the preview
object: dryRun is true, wouldExecute carries the method and path given, and
its body key equals the given body when one was passed and is absent when
none was. -/
theorem formatDryRun_parse_round_trip (method path : String) (body : Option Json) :
    (formatDryRun method path body).content
      = [textContent (jsonStringify (dryRunPreview method path body))]
    ∧ Json.parse (jsonStringify (dryRunPreview method path body))
        = some (dryRunPreview method path body)
    ∧ (dryRunPreview method path body).getKey "dryRun" = some (.bool true)
    ∧ ((dryRunPreview method path body).getKey "wouldExecute").bind
        (fun w => w.getKey "method") = some (.str method)
    ∧ ((dryRunPreview method path body).getKey "wouldExecute").bind
        (fun w => w.getKey "path") = some (.str path)
    ∧ (body = none → ((dryRunPreview method path body).getKey "wouldExecute").bind
        (fun w => w.getKey "body") = none)
    ∧ (∀ b, body = some b → ((dryRunPreview method path body).getKey "wouldExecute").bind
        (fun w => w.getKey "body") = some b) := by
  refine ⟨rfl, parse_jsonStringify _, rfl, ?_, ?_, ?_, ?_⟩
  · cases body <;> rfl
  · cases body <;> rfl
  · intro h
    subst h
    rfl
  · intro b h
    subst h
    rfl

/-- C7 witness: round-trip at a body-free DELETE preview and a body key
present at a POST preview. -/
theorem formatDryRun_parse_round_trip_witness :
    Json.parse (jsonStringify (dryRunPreview "DELETE" "/sites/s1/devices/d1" none))
      = some (dryRunPreview "DELETE" "/sites/s1/devices/d1" none)
    ∧ ((dryRunPreview "DELETE" "/sites/s1/devices/d1" none).getKey "wouldExecute").bind
        (fun w => w.getKey "body") = none
    ∧ ((dryRunPreview "POST" "/sites/s1/networks"
          (some (Json.obj [("name", Json.str "Guest")]))).getKey "wouldExecute").bind
        (fun w => w.getKey "body") = some (Json.obj [("name", Json.str "Guest")]) := by
  refine ⟨(formatDryRun_parse_round_trip "DELETE" "/sites/s1/devices/d1" none).2.1,
    (formatDryRun_parse_round_trip "DELETE" "/sites/s1/devices/d1" none).2.2.2.2.2.1 rfl, ?_⟩
  exact (formatDryRun_parse_round_trip "POST" "/sites/s1/networks"
    (some (Json.obj [("name", Json.str "Guest")]))).2.2.2.2.2.2 _ rfl


/-- C4 witness: a read-only tool name is registered in both modes, and a
write-only registration carries readOnlyHint false. -/
theorem registerAllTools_read_only_strict_subset_witness :
    "unifi_list_networks" ∈ toolNames false
    ∧ (⟨"unifi_delete_network", ["siteId", "networkId", "force", "confirm", "dryRun"],
        DESTRUCTIVE⟩ : ToolReg).annotations.readOnlyHint = false := by
  constructor
  · exact registerAllTools_read_only_strict_subset.1 "unifi_list_networks" (by decide)
  · exact registerAllTools_read_only_strict_subset.2.2.1 _ (by decide) (by decide)

/-- C5 witness at the unifi_list_networks registration. -/
theorem read_only_mode_tools_read_only_witness :
    (⟨"unifi_list_networks", ["siteId", "offset", "limit", "filter"],
        READ_ONLY⟩ : ToolReg).annotations.readOnlyHint = true
    ∧ (⟨"unifi_list_networks", ["siteId", "offset", "limit", "filter"],
        READ_ONLY⟩ : ToolReg).annotations.destructiveHint = false
    ∧ "dryRun" ∉ (⟨"unifi_list_networks", ["siteId", "offset", "limit", "filter"],
        READ_ONLY⟩ : ToolReg).inputFields
    ∧ "confirm" ∉ (⟨"unifi_list_networks", ["siteId", "offset", "limit", "filter"],
        READ_ONLY⟩ : ToolReg).inputFields :=
  read_only_mode_tools_read_only _ (by decide)

end UnifiMcp
